import Mathlib

/-!
# Balances state channel: command-line client and ledger

A shallow embedding of `src/cli/index.js` (the functions `signReceipt` and
`updateChannel`) together with the ledger operations the test-suite
`src/ethereum/test/BalancesStateChannel.js` exercises.

Conventions of the embedding

* The receipts database (`receipts.json`) is a `List Receipt`; reading and
  writing the file is explicit state passing.
* Everything the client obtains from outside the repository (the web3
  provider, the deployed contract, the JavaScript builtin `parseInt`) is a
  field of `Env`; every theorem holds for every such environment.
* A run of an `async` function is summarised by a `Run`: the console lines,
  the ledger calls in order, the database written back (if any) and the way
  the returned promise completes.
-/

namespace StateChannel

/-! ## JavaScript values -/

/-- An account identifier as the client sees it: the string web3 returns. -/
abbrev Address := String

/-- The result of the JavaScript builtin `parseInt`: `NaN`, or a number.  The
numbers other than `NaN` are kept abstract as a linearly ordered type `N`
(IEEE doubles ordered by `<`, with `-0` and `+0` identified), so that nothing
is assumed about rounding. -/
inductive JSNumber (N : Type) where
  | nan : JSNumber N
  | num (v : N) : JSNumber N
  deriving DecidableEq, Repr

/-- JavaScript `a < b` on numbers: false as soon as one side is `NaN`. -/
def JSNumber.lt {N : Type} [LinearOrder N] : JSNumber N → JSNumber N → Bool
  | .num a, .num b => decide (a < b)
  | _, _ => false

/-- JavaScript `a >= b` on numbers: false as soon as one side is `NaN`. -/
def JSNumber.ge {N : Type} [LinearOrder N] : JSNumber N → JSNumber N → Bool
  | .num a, .num b => decide (b ≤ a)
  | _, _ => false

/-- A value passed to `signReceipt`: a `BN` big number, or anything else
(kept as the string its `toString()` yields). -/
inductive JSValue where
  | bn (v : Int) : JSValue
  | other (text : String) : JSValue
  deriving DecidableEq, Repr

/-- Predicate `isBN` of web3-utils. -/
def isBN : JSValue → Bool
  | .bn _ => true
  | .other _ => false

/-- Method `toString()` of a value: decimal digits for a `BN`. -/
def JSValue.toString : JSValue → String
  | .bn v => ToString.toString v
  | .other text => text

/-! ## Receipts -/

/-- The array `state` of a receipt,
`[participant0, nonce, participant1, balance0, balance1]`; the fields are
named after the positions `state[0]` .. `state[4]`. -/
structure ReceiptState where
  participant0 : Address
  nonce : String
  participant1 : Address
  balance0 : String
  balance1 : String
  deriving DecidableEq, Repr

/-- The object `web3.eth.accounts.sign` returns. -/
structure SignatureObject where
  message : String
  messageHash : String
  v : String
  r : String
  s : String
  signature : String
  deriving DecidableEq, Repr

/-- One element of the receipts database.  `index` is absent (`none`) in a
receipt pushed by `signReceipt`; `updateChannel` adds it (index.js line 81). -/
structure Receipt where
  state : ReceiptState
  hash : String
  sig0 : SignatureObject
  sig1 : SignatureObject
  committed : Bool
  index : Option Nat
  deriving DecidableEq, Repr

/-! ## Hashing of the channel identifier -/

/-- Result of `encodePacked` on two `address` values: the two addresses side
by side. -/
structure Packed where
  first : Address
  second : Address
  deriving DecidableEq, Repr

/-- A keccak256 digest, represented by the bytes that were hashed (keccak256
is idealised as collision free). -/
structure Digest where
  preimage : Packed
  deriving DecidableEq, Repr

/-- Function `encodePacked` of web3-utils at two addresses. -/
def encodePacked (a b : Address) : Packed := ⟨a, b⟩

/-- Function `keccak256` of web3-utils. -/
def keccak256 (bytes : Packed) : Digest := ⟨bytes⟩

/-! ## The ledger as the client sees it -/

/-- What `contract.methods.channels(channelId).call()` returns. -/
structure ChannelView where
  balance0 : String
  balance1 : String
  nonce : String
  deriving DecidableEq, Repr

/-- An event of the handle returned by `.send(...)`. -/
inductive TxEvent where
  | receipt (transactionHash : String) : TxEvent
  | confirmation (number : Nat) (transactionHash : String) : TxEvent
  | error (e : String) : TxEvent
  deriving DecidableEq, Repr

/-- A call the client makes on the ledger contract. -/
inductive LedgerCall where
  | channels (channelId : Digest) : LedgerCall
  | hashState (state : ReceiptState) : LedgerCall
  | updateChannelState (state : ReceiptState) (sig0 sig1 : String)
      (sender : Address) : LedgerCall
  deriving DecidableEq, Repr

/-- Everything outside the repository that the client talks to. -/
structure Env (N : Type) where
  /-- the JavaScript builtin `parseInt` -/
  parseInt : String → JSNumber N
  /-- the array `privateKeys` read from `keys.json` (its first two entries) -/
  privateKeys : String × String
  /-- the account the wallet provider derives from a private key -/
  addressOf : String → Address
  /-- the view `contract.methods.hashState(state).call()` -/
  hashState : ReceiptState → String
  /-- the signer `web3.eth.accounts.sign(hash, privateKey)` -/
  sign : String → String → SignatureObject
  /-- the view `contract.methods.channels(channelId).call()` -/
  channels : Digest → ChannelView
  /-- the events that follow the transaction
  `contract.methods.updateChannelState(state, sig0, sig1).send(...)` from the
  given sender -/
  send : ReceiptState → String → String → Address → List TxEvent

/-- The first two accounts `web3.eth.getAccounts()` resolves to: the provider
is built from `privateKeys` and lists the accounts in the order of the keys. -/
def Env.getAccounts {N : Type} (env : Env N) : Address × Address :=
  (env.addressOf env.privateKeys.1, env.addressOf env.privateKeys.2)

/-! ## Runs -/

/-- An exception or promise rejection. -/
inductive JSError where
  | referenceError (name : String) : JSError
  | typeError : JSError
  | rejected (e : String) : JSError
  deriving DecidableEq, Repr

/-- How the promise of an `async` function completes. -/
inductive Completion where
  | returned : Completion
  | threw (e : JSError) : Completion
  | pending : Completion
  deriving DecidableEq, Repr

/-- Observable summary of one call of a client function. -/
structure Run where
  console : List String
  ledger : List LedgerCall
  written : Option (List Receipt)
  completion : Completion
  deriving DecidableEq, Repr

/-- The receipts database after a run that started from `database`. -/
def Run.store (run : Run) (database : List Receipt) : List Receipt :=
  run.written.getD database

/-! ## `signReceipt` (index.js lines 33-58) -/

/-- Function `signReceipt`, given the database on disk. -/
def signReceipt {N : Type} (env : Env N) (database : List Receipt)
    (balance0 balance1 nonce : JSValue) : Run :=
  let alice := env.getAccounts.1
  let bob := env.getAccounts.2
  if !isBN balance0 then
    { console := [], ledger := [], written := none, completion := .returned }
  else if !isBN balance1 then
    { console := [], ledger := [], written := none, completion := .returned }
  else
    let state : ReceiptState :=
      ⟨alice, nonce.toString, bob, balance0.toString, balance1.toString⟩
    let hash := env.hashState state
    let sig0 := env.sign hash env.privateKeys.1
    let sig1 := env.sign hash env.privateKeys.2
    let receipts := database
    let receipts := receipts ++ [⟨state, hash, sig0, sig1, false, none⟩]
    { console := [], ledger := [.hashState state], written := some receipts,
      completion := .returned }

/-! ## `updateChannel` (index.js lines 62-141) -/

/-- The filter predicate of lines 68-70. -/
def pairMatches (alice bob : Address) (receipt : Receipt) : Bool :=
  (receipt.state.participant0 == alice && receipt.state.participant1 == bob) ||
  (receipt.state.participant0 == bob && receipt.state.participant1 == alice)

/-- Method `Array.prototype.reduce` with an initial value: the callback sees
the accumulator, the element and its index, from index `start` on. -/
def reduceFrom {α β : Type} (callback : β → α → Nat → β) :
    List α → Nat → β → β
  | [], _, acc => acc
  | x :: xs, start, acc => reduceFrom callback xs (start + 1) (callback acc x start)

/-- The callback of lines 79-91.  `!lastReceipt` is false, the accumulator
always being an object.  The assignment `lastReceipt.index = 0` is made on the
accumulator; that the accumulator is at that moment the very object
`receipts[0]` is accounted for by `afterReduce`. -/
def reduceCallback {N : Type} [LinearOrder N] (parseInt : String → JSNumber N)
    (lastReceipt receipt : Receipt) (currentIndex : Nat) : Receipt :=
  let lastReceipt :=
    if currentIndex == 0 then { lastReceipt with index := some 0 } else lastReceipt
  if (parseInt lastReceipt.state.nonce).lt (parseInt receipt.state.nonce) then
    { receipt with index := some currentIndex }
  else
    lastReceipt

/-- The array `receipts` once `reduce` has run: its first element, which is
the initial accumulator `receipts[0]`, has received the property `index: 0`. -/
def afterReduce : List Receipt → List Receipt
  | [] => []
  | first :: rest => { first with index := some 0 } :: rest

/-- The value `receipts.reduce(callback, receipts[0])` of lines 78-93 on a
non-empty array; `none` on the empty array, which line 73 excludes. -/
def lastReceiptOf {N : Type} [LinearOrder N] (parseInt : String → JSNumber N) :
    List Receipt → Option Receipt
  | [] => none
  | first :: rest =>
    some (reduceFrom (reduceCallback parseInt) (first :: rest) 0 first)

/-- The receipts `updateChannel` works on: line 65-71. -/
def pairReceipts {N : Type} (env : Env N) (database : List Receipt) : List Receipt :=
  database.filter (pairMatches env.getAccounts.1 env.getAccounts.2)

/-- The receipt `updateChannel` selects from the database, if any. -/
def selectedReceipt {N : Type} [LinearOrder N] (env : Env N)
    (database : List Receipt) : Option Receipt :=
  lastReceiptOf env.parseInt (pairReceipts env database)

/-- The assignment `receipts[index].committed = true` of line 138; `none`
when `receipts[index]` is undefined (a `TypeError`). -/
def markCommitted : List Receipt → Nat → Option (List Receipt)
  | [], _ => none
  | receipt :: rest, 0 => some ({ receipt with committed := true } :: rest)
  | receipt :: rest, index + 1 => (markCommitted rest index).map (receipt :: ·)

/-- How the promise of lines 117-136 settles. -/
inductive Settlement where
  | resolved : Settlement
  | rejected (e : String) : Settlement
  | pending : Settlement
  deriving DecidableEq, Repr

/-- The event handlers of lines 122-135 run over the events of the
transaction, up to the event that settles the promise: the lines they log and
the settlement.  A list of events that holds neither an `error` nor a
`confirmation` numbered 2 leaves the promise pending. -/
def awaitConfirmation : List TxEvent → List String × Settlement
  | [] => ([], .pending)
  | .receipt transactionHash :: events =>
    let rest := awaitConfirmation events
    ("\t> Transaction approved" ::
      ("\t> https://goerli.etherscan.io/tx/" ++ transactionHash) ::
      "\t> Waiting for a confirmation..." :: rest.1, rest.2)
  | .confirmation number _ :: events =>
    if number = 2 then (["\t> Confirmed"], .resolved)
    else awaitConfirmation events
  | .error e :: _ => ([], .rejected e)

/-- The channel identifier computed at lines 102-107. -/
def readChannelId {N : Type} (env : Env N) : Digest :=
  keccak256 (encodePacked env.getAccounts.1 env.getAccounts.2)

/-- Function `updateChannel`, given the database on disk. -/
def updateChannel {N : Type} [LinearOrder N] (env : Env N)
    (database : List Receipt) : Run :=
  let alice := env.getAccounts.1
  let receipts := pairReceipts env database
  match lastReceiptOf env.parseInt receipts with
  | none =>
    { console := ["> No receipts found in database"], ledger := [],
      written := none, completion := .returned }
  | some last =>
    let receipts := afterReduce receipts
    if last.committed then
      { console := ["\t> Last receipt (nonce: " ++ last.state.nonce ++
          ") is marked as committed, skipping"],
        ledger := [], written := none, completion := .returned }
    else
      let channelId := readChannelId env
      let previousState := env.channels channelId
      if (env.parseInt previousState.nonce).ge (env.parseInt last.state.nonce) then
        -- the template literal of line 112 reads the undeclared name `nonce`
        { console := [], ledger := [.channels channelId], written := none,
          completion := .threw (.referenceError "nonce") }
      else
        let submission :=
          LedgerCall.updateChannelState last.state last.sig0.signature
            last.sig1.signature alice
        let events :=
          env.send last.state last.sig0.signature last.sig1.signature alice
        let waited := awaitConfirmation events
        let console := "Updating channel state on-chain..." :: waited.1
        match waited.2 with
        | .pending =>
          { console := console, ledger := [.channels channelId, submission],
            written := none, completion := .pending }
        | .rejected e =>
          { console := console, ledger := [.channels channelId, submission],
            written := none, completion := .threw (.rejected e) }
        | .resolved =>
          match last.index.bind (markCommitted receipts) with
          | none =>
            { console := console, ledger := [.channels channelId, submission],
              written := none, completion := .threw .typeError }
          | some receipts =>
            { console := console, ledger := [.channels channelId, submission],
              written := some receipts, completion := .returned }

/-- The accumulator once the callback has been entered at index `start`, if
it is entered at all. -/
def touched (start : Nat) (receipts : List Receipt) (acc : Receipt) : Receipt :=
  if start = 0 ∧ receipts ≠ [] then { acc with index := some 0 } else acc

/-! ## A concrete environment, for evaluating the client -/

/-- Value of a decimal digit. -/
def digitValue (c : Char) : Option Nat :=
  if c.toNat < 48 then none else if c.toNat ≤ 57 then some (c.toNat - 48) else none

/-- The number spelled by the leading decimal digits of `cs`, after the
digits `acc` read so far. -/
def leadingDigits : List Char → Option Nat → Option Nat
  | [], acc => acc
  | c :: cs, acc =>
    match digitValue c with
    | none => acc
    | some d => leadingDigits cs (some (acc.getD 0 * 10 + d))

/-- The builtin `parseInt` on strings that start with a decimal digit (no
blank, sign or `0x` prefix) and spell a number below `2 ^ 53`; `NaN` when the
string does not start with a digit. -/
def parseIntDecimal (s : String) : JSNumber Nat :=
  match leadingDigits s.data none with
  | none => .nan
  | some n => .num n

/-- A signer that records the hash and the key. -/
def demoSign (hash key : String) : SignatureObject :=
  ⟨hash, hash, "0x1b", key, hash, key ++ hash⟩

/-- An environment with accounts `alice` and `bob`, a ledger whose channel
records all have nonce `ledgerNonce`, and transactions followed by `events`. -/
def demoEnv (ledgerNonce : String) (events : List TxEvent) : Env Nat where
  parseInt := parseIntDecimal
  privateKeys := ("keyA", "keyB")
  addressOf := fun key => if key = "keyA" then "alice" else if key = "keyB" then "bob" else key
  hashState := fun state =>
    state.participant0 ++ state.nonce ++ state.participant1 ++ state.balance0 ++
      state.balance1
  sign := demoSign
  channels := fun _ => ⟨"0", "0", ledgerNonce⟩
  send := fun _ _ _ _ => events

/-- A receipt between `p0` and `p1` as `signReceipt` would store it. -/
def demoReceipt (p0 p1 : Address) (nonce : String) (committed : Bool) : Receipt :=
  let state : ReceiptState := ⟨p0, nonce, p1, "30", "70"⟩
  ⟨state, "h" ++ nonce, demoSign ("h" ++ nonce) "keyA", demoSign ("h" ++ nonce) "keyB",
    committed, none⟩

/-- A database of four receipts: one of another pair, three of the pair
(alice, bob), the last two sharing the highest nonce. -/
def demoDatabase : List Receipt :=
  [demoReceipt "carol" "dave" "9" false, demoReceipt "alice" "bob" "1" false,
    demoReceipt "bob" "alice" "2" false, demoReceipt "alice" "bob" "2" true]

/-- The events of a transaction that is mined and confirmed. -/
def demoConfirmed : List TxEvent :=
  [.receipt "0xabc", .confirmation 0 "0xabc", .confirmation 1 "0xabc",
    .confirmation 2 "0xabc", .confirmation 3 "0xabc"]

/-- An event that settles the promise of lines 117-136. -/
def TxEvent.settles : TxEvent → Bool
  | .receipt _ => false
  | .confirmation number _ => decide (number = 2)
  | .error _ => true

/-! ## The ledger contract

The Solidity source of the contract `BalancesStateChannel` is not among the
sources; the test-suite `test/BalancesStateChannel.js` is.  The contract is
modelled from section 4.2 of the specification, and from the test-suite where
it pins the behaviour (rejection reasons, the order of the first checks, the
rule for a funded channel). -/

/-- The candidate state `[participant0, nonce, participant1, balance0,
balance1]` as the contract decodes it: unsigned integers, without a bound
since the specification states none. -/
structure State where
  participant0 : Address
  nonce : Nat
  participant1 : Address
  balance0 : Nat
  balance1 : Nat
  deriving DecidableEq, Repr

/-- The digest of a state, represented by the state that was hashed: the
codec's hash is deterministic and changes with any single field (spec 4.1). -/
structure StateHash where
  preimage : State
  deriving DecidableEq, Repr

/-- Modelled from the spec: the contract view `hashState` (spec 4.1,
`StateCodec.hash`), whose source is missing. -/
def hashState (state : State) : StateHash := ⟨state⟩

/-- The signing primitive `recover(digest, signature) -> identity`, an
external collaborator (spec 1 and 6). -/
abbrev Recover := StateHash → String → Address

/-- The record `channels[channelId]`: escrowed balances and nonce. -/
structure ChannelRecord where
  balance0 : Nat
  balance1 : Nat
  nonce : Nat
  deriving DecidableEq, Repr

/-- The storage of the contract: free balances, channel records, and the set
of hashes accepted so far. -/
structure Ledger where
  balances : Address → Nat
  channels : Digest → ChannelRecord
  committedHashes : StateHash → Bool

/-- The reasons with which the contract rejects a call; the test-suite gives
the strings. -/
inductive Revert where
  /-- reason `invalid sig0` -/
  | invalidSig0 : Revert
  /-- reason `invalid sig1` -/
  | invalidSig1 : Revert
  /-- reason `sender does not participate in this channel` -/
  | senderDoesNotParticipate : Revert
  /-- reason `hash was already committed` -/
  | hashAlreadyCommitted : Revert
  /-- reason `nonce must increment` -/
  | nonceMustIncrement : Revert
  /-- reason `invalid balances` -/
  | invalidBalances : Revert
  /-- a free balance does not cover the deposit (spec 4.2, step 6) -/
  | insufficientFreeBalance : Revert
  /-- reason `lock some funds into the channel first` -/
  | lockSomeFundsFirst : Revert
  /-- a deposit of amount 0 (spec 4.2, `deposit`) -/
  | zeroAmount : Revert
  deriving DecidableEq, Repr

/-- The event `ChannelUpdated` of the contract. -/
structure ChannelUpdated where
  channelId : Digest
  participant0 : Address
  participant1 : Address
  balance0 : Nat
  balance1 : Nat
  nonce : Nat
  deriving DecidableEq, Repr

/-- The contract right after deployment. -/
def Ledger.initial : Ledger where
  balances := fun _ => 0
  channels := fun _ => ⟨0, 0, 0⟩
  committedHashes := fun _ => false

/-- The identifier of the channel of the ordered pair, as the test-suite
computes `CHANNEL_ID` (test lines 11-16). -/
def channelIdOf (participant0 participant1 : Address) : Digest :=
  keccak256 (encodePacked participant0 participant1)

/-- Modelled from the spec: the contract method `mint` the test-suite calls
(`deposit` in spec 4.2), whose source is missing: credits the sender's free
balance; the amount must be positive. -/
def Ledger.mint (ledger : Ledger) (amount : Nat) (sender : Address) :
    Except Revert (Ledger × List ChannelUpdated) :=
  if amount = 0 then .error .zeroAmount
  else
    .ok ({ ledger with
      balances := Function.update ledger.balances sender (ledger.balances sender + amount) },
      [])

/-- Modelled from the spec: step 6 of `updateChannelState` (spec 4.2), whose
source is missing.  On an empty record each participant deposits the new
balance, taken from the free balance, which must cover it.  On a funded
record the escrow is only reshuffled: the free balances stay and the total
must be the one escrowed (test lines 231-252, reason `invalid balances`; spec
8, the scenario of the states 30/70 and 29/71). -/
def lockFunds (balances : Address → Nat) (record : ChannelRecord) (state : State) :
    Except Revert (Address → Nat) :=
  if record.balance0 = 0 ∧ record.balance1 = 0 then
    if balances state.participant0 < state.balance0 then .error .insufficientFreeBalance
    else
      let debited :=
        Function.update balances state.participant0
          (balances state.participant0 - state.balance0)
      if debited state.participant1 < state.balance1 then .error .insufficientFreeBalance
      else
        .ok (Function.update debited state.participant1
          (debited state.participant1 - state.balance1))
  else if record.balance0 + record.balance1 ≠ state.balance0 + state.balance1 then
    .error .invalidBalances
  else .ok balances

/-- Modelled from the spec: the contract method `updateChannelState` (spec
4.2, steps 1-7), whose source is missing.  The signatures are checked before
the sender, as the test of lines 122-149 requires (a state of (carol, dave)
signed by alice and bob and sent by alice is answered `invalid sig0`); the
other checks come in the order of the specification. -/
def Ledger.updateChannelState (recover : Recover) (ledger : Ledger) (state : State)
    (sig0 sig1 : String) (sender : Address) :
    Except Revert (Ledger × List ChannelUpdated) :=
  let hash := hashState state
  if recover hash sig0 ≠ state.participant0 then .error .invalidSig0
  else if recover hash sig1 ≠ state.participant1 then .error .invalidSig1
  else if sender ≠ state.participant0 ∧ sender ≠ state.participant1 then
    .error .senderDoesNotParticipate
  else if ledger.committedHashes hash then .error .hashAlreadyCommitted
  else
    let channelId := channelIdOf state.participant0 state.participant1
    let record := ledger.channels channelId
    if state.nonce ≤ record.nonce then .error .nonceMustIncrement
    else
      match lockFunds ledger.balances record state with
      | .error reason => .error reason
      | .ok balances =>
        .ok ({ balances := balances,
               channels := Function.update ledger.channels channelId
                 ⟨state.balance0, state.balance1, state.nonce⟩,
               committedHashes := Function.update ledger.committedHashes hash true },
          [⟨channelId, state.participant0, state.participant1, state.balance0,
            state.balance1, state.nonce⟩])

/-- Modelled from the spec: the contract method `resetChannelState` (spec
4.2), whose source is missing: the sender must be one of the two
participants, the channel must hold funds; each participant is credited the
locked amount, the balances of the record are zeroed and its nonce is kept. -/
def Ledger.resetChannelState (ledger : Ledger) (participant0 participant1 sender : Address) :
    Except Revert (Ledger × List ChannelUpdated) :=
  if sender ≠ participant0 ∧ sender ≠ participant1 then .error .senderDoesNotParticipate
  else
    let channelId := channelIdOf participant0 participant1
    let record := ledger.channels channelId
    if record.balance0 = 0 ∧ record.balance1 = 0 then .error .lockSomeFundsFirst
    else
      let credited :=
        Function.update ledger.balances participant0
          (ledger.balances participant0 + record.balance0)
      .ok ({ ledger with
        balances := Function.update credited participant1
          (credited participant1 + record.balance1),
        channels := Function.update ledger.channels channelId ⟨0, 0, record.nonce⟩ },
        [⟨channelId, participant0, participant1, 0, 0, record.nonce⟩])

/-- A transaction sent to the contract. -/
inductive Call where
  | mint (amount : Nat) (sender : Address) : Call
  | updateChannelState (state : State) (sig0 sig1 : String) (sender : Address) : Call
  | resetChannelState (participant0 participant1 sender : Address) : Call
  deriving DecidableEq, Repr

/-- The outcome of a transaction. -/
def Ledger.call (recover : Recover) (ledger : Ledger) :
    Call → Except Revert (Ledger × List ChannelUpdated)
  | .mint amount sender => ledger.mint amount sender
  | .updateChannelState state sig0 sig1 sender =>
    ledger.updateChannelState recover state sig0 sig1 sender
  | .resetChannelState participant0 participant1 sender =>
    ledger.resetChannelState participant0 participant1 sender

/-- The storage after a transaction: a rejected transaction changes
nothing. -/
def Ledger.step (recover : Recover) (ledger : Ledger) (call : Call) : Ledger :=
  match ledger.call recover call with
  | .ok (next, _) => next
  | .error _ => ledger

/-- The storage after a sequence of transactions on the fresh contract. -/
def Ledger.run (recover : Recover) (calls : List Call) : Ledger :=
  calls.foldl (Ledger.step recover) Ledger.initial

/-- A storage the contract can be in: the outcome of some sequence of
transactions since deployment. -/
def Ledger.Reachable (recover : Recover) (ledger : Ledger) : Prop :=
  ∃ calls, ledger = Ledger.run recover calls

/-- Every accepted state has a nonce at most the nonce of its channel. -/
def Ledger.SpentBelowNonce (ledger : Ledger) : Prop :=
  ∀ state : State, ledger.committedHashes (hashState state) = true →
    state.nonce ≤ (ledger.channels (channelIdOf state.participant0 state.participant1)).nonce

/-- A signature scheme for evaluation: the signature of `signer` over the
state `state` is the text `signer:nonce`; anything else recovers to the
account `0x0`. -/
def demoRecover : Recover := fun hash signature =>
  if signature = "alice:" ++ toString hash.preimage.nonce then "alice"
  else if signature = "bob:" ++ toString hash.preimage.nonce then "bob"
  else "0x0"

/-- The contract after alice and bob have each minted 100. -/
def demoLedger : Ledger :=
  Ledger.run demoRecover [.mint 100 "alice", .mint 100 "bob"]

/-- The contract once the state `(alice, 1, bob, 30, 70)`, signed by both and
sent by alice, has been accepted on `demoLedger`. -/
def demoFunded : Ledger :=
  Ledger.run demoRecover [.mint 100 "alice", .mint 100 "bob",
    .updateChannelState ⟨"alice", 1, "bob", 30, 70⟩ "alice:1" "bob:1" "alice"]

/-! ## Comparison of JavaScript numbers -/

section Numbers

variable {N : Type} [LinearOrder N]

theorem JSNumber.lt_irrefl (a : JSNumber N) : a.lt a = false := by
  cases a <;> simp [JSNumber.lt]

theorem JSNumber.lt_trans {a b c : JSNumber N} (hab : a.lt b = true)
    (hbc : b.lt c = true) : a.lt c = true := by
  cases a <;> cases b <;> cases c <;> simp_all [JSNumber.lt]
  exact hab.trans hbc

theorem JSNumber.ge_eq_false_of_lt {a b : JSNumber N} (hab : a.lt b = true) :
    a.ge b = false := by
  cases a <;> cases b <;> simp_all [JSNumber.lt, JSNumber.ge]

theorem JSNumber.lt_eq_false_of_lt {a b : JSNumber N} (hab : a.lt b = true) :
    b.lt a = false := by
  cases a <;> cases b <;> simp_all [JSNumber.lt]
  exact hab.le

theorem JSNumber.ge_eq_false_of_not_lt {a x r : JSNumber N} (hax : a.lt x = false)
    (har : a.lt r = true) : x.ge r = false := by
  cases a <;> cases x <;> cases r <;> simp_all [JSNumber.lt, JSNumber.ge]
  exact lt_of_le_of_lt hax har

theorem JSNumber.lt_eq_false_of_ge_eq_false {x r : JSNumber N} (h : x.ge r = false) :
    r.lt x = false := by
  cases x <;> cases r <;> simp_all [JSNumber.lt, JSNumber.ge]
  exact h.le

theorem JSNumber.ge_of_not_lt {a b : JSNumber N} (ha : a ≠ .nan) (hb : b ≠ .nan)
    (h : a.lt b = false) : a.ge b = true := by
  cases a <;> cases b <;> simp_all [JSNumber.lt, JSNumber.ge]

theorem JSNumber.lt_of_not_ge {a b : JSNumber N} (ha : a ≠ .nan) (hb : b ≠ .nan)
    (h : a.ge b = false) : a.lt b = true := by
  cases a <;> cases b <;> simp_all [JSNumber.lt, JSNumber.ge]

end Numbers

/-! ## The reduction of lines 78-93 -/

section Reduce

variable {N : Type} [LinearOrder N] (parseInt : String → JSNumber N)

theorem touched_nonce (start : Nat) (receipts : List Receipt) (acc : Receipt) :
    (touched start receipts acc).state = acc.state := by
  unfold touched; split <;> rfl

theorem reduceFrom_spec (receipts : List Receipt) :
    ∀ (start : Nat) (acc : Receipt),
      (reduceFrom (reduceCallback parseInt) receipts start acc = touched start receipts acc ∧
        ∀ y ∈ receipts, (parseInt acc.state.nonce).lt (parseInt y.state.nonce) = false) ∨
      ∃ pre r post, receipts = pre ++ r :: post ∧
        reduceFrom (reduceCallback parseInt) receipts start acc
          = { r with index := some (start + pre.length) } ∧
        (parseInt acc.state.nonce).lt (parseInt r.state.nonce) = true ∧
        (∀ y ∈ pre, (parseInt y.state.nonce).ge (parseInt r.state.nonce) = false) ∧
        (∀ y ∈ post, (parseInt r.state.nonce).lt (parseInt y.state.nonce) = false) := by
  induction receipts with
  | nil =>
    intro start acc
    left
    simp [reduceFrom, touched]
  | cons x xs ih =>
    intro start acc
    have hstate : (if (start == 0) = true then { acc with index := some 0 } else acc).state
        = acc.state := by split <;> rfl
    by_cases hlt : (parseInt acc.state.nonce).lt (parseInt x.state.nonce) = true
    · -- the callback replaces the accumulator by a copy of `x`
      have hstep : reduceCallback parseInt acc x start = { x with index := some start } := by
        simp only [reduceCallback, hstate, hlt, if_true]
      right
      rcases ih (start + 1) { x with index := some start } with ⟨hres, hall⟩ | ⟨pre, r, post, hxs, hres, hxr, hpre, hpost⟩
      · refine ⟨[], x, xs, rfl, ?_, hlt, by simp, hall⟩
        simp only [reduceFrom, hstep, hres, touched]
        simp
      · refine ⟨x :: pre, r, post, by simp [hxs], ?_, JSNumber.lt_trans hlt hxr, ?_, hpost⟩
        · simp only [reduceFrom, hstep, hres, List.length_cons]
          congr 2; omega
        · intro y hy
          rcases List.mem_cons.1 hy with rfl | hy
          · exact JSNumber.ge_eq_false_of_lt hxr
          · exact hpre y hy
    · -- the callback keeps the accumulator
      have hlt : (parseInt acc.state.nonce).lt (parseInt x.state.nonce) = false := by
        simpa using hlt
      have hstep : reduceCallback parseInt acc x start
          = if (start == 0) = true then { acc with index := some 0 } else acc := by
        simp only [reduceCallback, hstate, hlt]
        simp
      have hstep2 : reduceCallback parseInt acc x start = touched start (x :: xs) acc := by
        rw [hstep]; unfold touched; by_cases h0 : start = 0 <;> simp [h0]
      rcases ih (start + 1) (reduceCallback parseInt acc x start) with ⟨hres, hall⟩ | ⟨pre, r, post, hxs, hres, hxr, hpre, hpost⟩
      · left
        refine ⟨?_, ?_⟩
        · simp only [reduceFrom, hres]
          rw [← hstep2]; simp [touched]
        · intro y hy
          rcases List.mem_cons.1 hy with rfl | hy
          · exact hlt
          · have := hall y hy
            rwa [hstep2, touched_nonce] at this
      · right
        rw [hstep2, touched_nonce] at hxr
        refine ⟨x :: pre, r, post, by simp [hxs], ?_, hxr, ?_, hpost⟩
        · simp only [reduceFrom, hres, List.length_cons]
          congr 2; omega
        · intro y hy
          rcases List.mem_cons.1 hy with rfl | hy
          · exact JSNumber.ge_eq_false_of_not_lt hlt hxr
          · exact hpre y hy

/-- The receipt `reduce` returns is a copy of an element of the array, tagged
with its position; no earlier element has a nonce `>=` its nonce, no later
element a nonce above its nonce. -/
theorem lastReceiptOf_spec (receipts : List Receipt) (last : Receipt)
    (h : lastReceiptOf parseInt receipts = some last) :
    ∃ pre r post, receipts = pre ++ r :: post ∧
      last = { r with index := some pre.length } ∧
      (∀ y ∈ pre, (parseInt y.state.nonce).ge (parseInt r.state.nonce) = false) ∧
      (∀ y ∈ post, (parseInt r.state.nonce).lt (parseInt y.state.nonce) = false) := by
  cases receipts with
  | nil => simp [lastReceiptOf] at h
  | cons first rest =>
    simp only [lastReceiptOf, Option.some.injEq] at h
    rcases reduceFrom_spec parseInt (first :: rest) 0 first with ⟨hres, hall⟩ | ⟨pre, r, post, hxs, hres, _, hpre, hpost⟩
    · refine ⟨[], first, rest, rfl, ?_, by simp, ?_⟩
      · rw [← h, hres]; simp [touched]
      · intro y hy
        exact hall y (List.mem_cons_of_mem _ hy)
    · refine ⟨pre, r, post, hxs, ?_, hpre, hpost⟩
      rw [← h, hres]; simp

theorem lastReceiptOf_eq_none (receipts : List Receipt) :
    lastReceiptOf parseInt receipts = none ↔ receipts = [] := by
  cases receipts <;> simp [lastReceiptOf]

end Reduce

/-! ## The receipts database and the selection -/

section Selection

variable {N : Type} [LinearOrder N]

/-- A position of the filtered array is a position of the database. -/
theorem filter_eq_split {α : Type} (p : α → Bool) (l : List α) (pre : List α) (r : α)
    (post : List α) (h : l.filter p = pre ++ r :: post) :
    ∃ before after, l = before ++ r :: after ∧ before.filter p = pre ∧
      after.filter p = post ∧ p r = true := by
  obtain ⟨l₁, l₂, hl, h₁, h₂⟩ := List.filter_eq_append_iff.1 h
  obtain ⟨m₁, m₂, hm, hnone, hr, hrest⟩ := List.filter_eq_cons_iff.1 h₂
  refine ⟨l₁ ++ m₁, m₂, by simp [hl, hm], ?_, hrest, hr⟩
  have : m₁.filter p = [] := by
    rw [List.filter_eq_nil_iff]; exact hnone
  simp [h₁, this]

/-- The selected receipt, located in the database. -/
theorem selectedReceipt_spec (env : Env N) (database : List Receipt) (last : Receipt)
    (h : selectedReceipt env database = some last) :
    ∃ before r after, database = before ++ r :: after ∧
      last = { r with index := some (pairReceipts env before).length } ∧
      pairMatches env.getAccounts.1 env.getAccounts.2 r = true ∧
      (∀ y ∈ before, pairMatches env.getAccounts.1 env.getAccounts.2 y = true →
        (env.parseInt y.state.nonce).ge (env.parseInt r.state.nonce) = false) ∧
      (∀ y ∈ after, pairMatches env.getAccounts.1 env.getAccounts.2 y = true →
        (env.parseInt r.state.nonce).lt (env.parseInt y.state.nonce) = false) := by
  obtain ⟨pre, r, post, hsplit, hlast, hpre, hpost⟩ :=
    lastReceiptOf_spec env.parseInt _ last h
  obtain ⟨before, after, hdb, hb, ha, hr⟩ := filter_eq_split _ _ _ _ _ hsplit
  refine ⟨before, r, after, hdb, by unfold pairReceipts; rw [hb]; exact hlast, hr, ?_, ?_⟩
  · intro y hy hp
    exact hpre y (by rw [← hb]; exact List.mem_filter.2 ⟨hy, hp⟩)
  · intro y hy hp
    exact hpost y (by rw [← ha]; exact List.mem_filter.2 ⟨hy, hp⟩)

theorem selectedReceipt_isSome (env : Env N) (database : List Receipt)
    (h : ∃ r ∈ database, pairMatches env.getAccounts.1 env.getAccounts.2 r = true) :
    ∃ last, selectedReceipt env database = some last := by
  cases hsel : selectedReceipt env database with
  | some last => exact ⟨last, rfl⟩
  | none =>
    exfalso
    obtain ⟨r, hr, hp⟩ := h
    have hnil := (lastReceiptOf_eq_none env.parseInt _).1 hsel
    have : r ∈ pairReceipts env database := List.mem_filter.2 ⟨hr, hp⟩
    rw [hnil] at this
    exact List.not_mem_nil _ this

theorem selectedReceipt_eq_none (env : Env N) (database : List Receipt)
    (h : ∀ r ∈ database, pairMatches env.getAccounts.1 env.getAccounts.2 r = false) :
    selectedReceipt env database = none := by
  apply (lastReceiptOf_eq_none env.parseInt _).2
  unfold pairReceipts
  rw [List.filter_eq_nil_iff]
  intro r hr
  simp [h r hr]

/-- The run of `updateChannel`, once the selected receipt is known. -/
theorem updateChannel_of_selected (env : Env N) (database : List Receipt) (last : Receipt)
    (h : selectedReceipt env database = some last) :
    updateChannel env database =
      if last.committed then
        { console := ["\t> Last receipt (nonce: " ++ last.state.nonce ++
            ") is marked as committed, skipping"],
          ledger := [], written := none, completion := .returned }
      else if (env.parseInt (env.channels (readChannelId env)).nonce).ge
          (env.parseInt last.state.nonce) then
        { console := [], ledger := [.channels (readChannelId env)], written := none,
          completion := .threw (.referenceError "nonce") }
      else
        let submission :=
          LedgerCall.updateChannelState last.state last.sig0.signature
            last.sig1.signature env.getAccounts.1
        let waited := awaitConfirmation
          (env.send last.state last.sig0.signature last.sig1.signature env.getAccounts.1)
        { console := "Updating channel state on-chain..." :: waited.1,
          ledger := [.channels (readChannelId env), submission],
          written :=
            (match waited.2 with
            | .resolved =>
              last.index.bind (markCommitted (afterReduce (pairReceipts env database)))
            | _ => none),
          completion :=
            (match waited.2 with
            | .resolved =>
              (match last.index.bind (markCommitted (afterReduce (pairReceipts env database))) with
              | none => .threw .typeError
              | some _ => .returned)
            | .rejected e => .threw (.rejected e)
            | .pending => .pending) } := by
  unfold selectedReceipt at h
  unfold updateChannel
  simp only [h]
  by_cases hc : last.committed = true
  · simp [hc]
  · by_cases hg : (env.parseInt (env.channels (readChannelId env)).nonce).ge
        (env.parseInt last.state.nonce) = true
    · simp [hc, hg]
    · simp only [hc, hg, if_false]
      generalize (awaitConfirmation
        (env.send last.state last.sig0.signature last.sig1.signature env.getAccounts.1)) = waited
      generalize last.index.bind (markCommitted (afterReduce (pairReceipts env database))) = marked
      rcases waited with ⟨logs, settled⟩
      cases settled <;> cases marked <;> rfl

end Selection

/-! ## Settlement of the submission -/

theorem awaitConfirmation_error (pre : List TxEvent) (e : String) (post : List TxEvent)
    (hpre : ∀ ev ∈ pre, ev.settles = false) :
    (awaitConfirmation (pre ++ .error e :: post)).2 = .rejected e := by
  induction pre with
  | nil => rfl
  | cons ev pre ih =>
    have hrest := ih (fun x hx => hpre x (List.mem_cons_of_mem _ hx))
    have hev := hpre ev (List.mem_cons_self _ _)
    cases ev with
    | receipt t => simpa [awaitConfirmation] using hrest
    | confirmation number t =>
      have hn : number ≠ 2 := by simpa [TxEvent.settles] using hev
      simpa [awaitConfirmation, hn] using hrest
    | error e' => simp [TxEvent.settles] at hev

theorem awaitConfirmation_resolved (events : List TxEvent)
    (h : (awaitConfirmation events).2 = .resolved) :
    ∃ pre t post, events = pre ++ .confirmation 2 t :: post ∧
      ∀ ev ∈ pre, ev.settles = false := by
  induction events with
  | nil => simp [awaitConfirmation] at h
  | cons ev events ih =>
    cases ev with
    | receipt t =>
      obtain ⟨pre, t', post, he, hpre⟩ := ih (by simpa [awaitConfirmation] using h)
      refine ⟨.receipt t :: pre, t', post, by simp [he], ?_⟩
      intro x hx
      rcases List.mem_cons.1 hx with rfl | hx
      · rfl
      · exact hpre x hx
    | confirmation number t =>
      by_cases hn : number = 2
      · subst hn
        exact ⟨[], t, events, rfl, by simp⟩
      · obtain ⟨pre, t', post, he, hpre⟩ := ih (by simpa [awaitConfirmation, hn] using h)
        refine ⟨.confirmation number t :: pre, t', post, by simp [he], ?_⟩
        intro x hx
        rcases List.mem_cons.1 hx with rfl | hx
        · simp [TxEvent.settles, hn]
        · exact hpre x hx
    | error e => simp [awaitConfirmation] at h

/-! ## Claims on `updateChannel` and `signReceipt` -/

section Claims

variable {N : Type} [LinearOrder N]

/-- The selection of `updateChannel`, characterised in the database: a copy
of a pair-matching receipt `r`; no pair-matching receipt has a nonce above the
nonce of `r`, and no earlier one a nonce `>=` it. -/
theorem selectedReceipt_first_maximum (env : Env N) (database : List Receipt)
    (hpair : ∃ r ∈ database, pairMatches env.getAccounts.1 env.getAccounts.2 r = true) :
    ∃ before r after, database = before ++ r :: after ∧
      selectedReceipt env database
        = some { r with index := some (pairReceipts env before).length } ∧
      pairMatches env.getAccounts.1 env.getAccounts.2 r = true ∧
      (∀ y ∈ database, pairMatches env.getAccounts.1 env.getAccounts.2 y = true →
        (env.parseInt r.state.nonce).lt (env.parseInt y.state.nonce) = false) ∧
      (∀ y ∈ before, pairMatches env.getAccounts.1 env.getAccounts.2 y = true →
        (env.parseInt y.state.nonce).ge (env.parseInt r.state.nonce) = false) := by
  obtain ⟨last, hsel⟩ := selectedReceipt_isSome env database hpair
  obtain ⟨before, r, after, hdb, hlast, hr, hbefore, hafter⟩ :=
    selectedReceipt_spec env database last hsel
  refine ⟨before, r, after, hdb, by rw [hsel, hlast], hr, ?_, hbefore⟩
  intro y hy hp
  rw [hdb] at hy
  rcases List.mem_append.1 hy with hy | hy
  · exact JSNumber.lt_eq_false_of_ge_eq_false (hbefore y hy hp)
  · rcases List.mem_cons.1 hy with rfl | hy
    · exact JSNumber.lt_irrefl _
    · exact hafter y hy hp

/-- On numeric nonces, "no nonce above" is `>=` and "not `>=`" is `<`. -/
theorem numeric_first_maximum (env : Env N) (before : List Receipt) (r : Receipt)
    (after : List Receipt)
    (hr : pairMatches env.getAccounts.1 env.getAccounts.2 r = true)
    (hmax : ∀ y ∈ before ++ r :: after,
      pairMatches env.getAccounts.1 env.getAccounts.2 y = true →
      (env.parseInt r.state.nonce).lt (env.parseInt y.state.nonce) = false)
    (hfirst : ∀ y ∈ before, pairMatches env.getAccounts.1 env.getAccounts.2 y = true →
      (env.parseInt y.state.nonce).ge (env.parseInt r.state.nonce) = false)
    (hnum : ∀ y ∈ before ++ r :: after,
      pairMatches env.getAccounts.1 env.getAccounts.2 y = true →
      env.parseInt y.state.nonce ≠ .nan) :
    (∀ y ∈ before ++ r :: after, pairMatches env.getAccounts.1 env.getAccounts.2 y = true →
      (env.parseInt r.state.nonce).ge (env.parseInt y.state.nonce) = true) ∧
    (∀ y ∈ before, pairMatches env.getAccounts.1 env.getAccounts.2 y = true →
      (env.parseInt y.state.nonce).lt (env.parseInt r.state.nonce) = true) := by
  have hrnum := hnum r (by simp) hr
  constructor
  · intro y hy hp
    exact JSNumber.ge_of_not_lt hrnum (hnum y hy hp) (hmax y hy hp)
  · intro y hy hp
    exact JSNumber.lt_of_not_ge (hnum y (by simp [hy]) hp) hrnum (hfirst y hy hp)

/-- C1: in a database that holds a receipt of the pair (alice, bob) in either
order, the receipt `updateChannel` selects is a copy of a pair-matching
receipt `r` of the database (tagged with its position among the pair's
receipts), and any database with the same pair-matching receipts yields the
same selection.  No pair-matching receipt has a nonce above the nonce of `r`
and no earlier one a nonce `>=` it; so, the nonces of the pair's receipts
being numeric (`parseInt` does not yield `NaN`), the nonce of `r` is `>=` the
nonce of every pair-matching receipt and every pair-matching receipt before
`r` has a nonce strictly below: `r` is the first to attain the maximum. -/
theorem updateChannel_selects_first_maximum (env : Env N) (database : List Receipt)
    (hpair : ∃ r ∈ database, pairMatches env.getAccounts.1 env.getAccounts.2 r = true) :
    ∃ before r after, database = before ++ r :: after ∧
      selectedReceipt env database
        = some { r with index := some (pairReceipts env before).length } ∧
      pairMatches env.getAccounts.1 env.getAccounts.2 r = true ∧
      (∀ other, pairReceipts env other = pairReceipts env database →
        selectedReceipt env other = selectedReceipt env database) ∧
      (∀ y ∈ database, pairMatches env.getAccounts.1 env.getAccounts.2 y = true →
        (env.parseInt r.state.nonce).lt (env.parseInt y.state.nonce) = false) ∧
      (∀ y ∈ before, pairMatches env.getAccounts.1 env.getAccounts.2 y = true →
        (env.parseInt y.state.nonce).ge (env.parseInt r.state.nonce) = false) ∧
      ((∀ y ∈ database, pairMatches env.getAccounts.1 env.getAccounts.2 y = true →
          env.parseInt y.state.nonce ≠ .nan) →
        (∀ y ∈ database, pairMatches env.getAccounts.1 env.getAccounts.2 y = true →
          (env.parseInt r.state.nonce).ge (env.parseInt y.state.nonce) = true) ∧
        (∀ y ∈ before, pairMatches env.getAccounts.1 env.getAccounts.2 y = true →
          (env.parseInt y.state.nonce).lt (env.parseInt r.state.nonce) = true)) := by
  obtain ⟨before, r, after, hdb, hsel, hr, hmax, hfirst⟩ :=
    selectedReceipt_first_maximum env database hpair
  refine ⟨before, r, after, hdb, hsel, hr, ?_, hmax, hfirst, ?_⟩
  · intro other hother
    unfold selectedReceipt
    rw [hother]
  · intro hnum
    subst hdb
    exact numeric_first_maximum env before r after hr hmax hfirst hnum

/-- Witness of C1 on a database of four receipts with numeric nonces, one of
them of another pair: the selected receipt is the third, the first of the two
of nonce 2. -/
theorem updateChannel_selects_first_maximum_witness :
    (∃ r ∈ demoDatabase,
      pairMatches (demoEnv "0" []).getAccounts.1 (demoEnv "0" []).getAccounts.2 r = true) ∧
    (∀ y ∈ demoDatabase,
      pairMatches (demoEnv "0" []).getAccounts.1 (demoEnv "0" []).getAccounts.2 y = true →
      (demoEnv "0" []).parseInt y.state.nonce ≠ .nan) ∧
    selectedReceipt (demoEnv "0" []) demoDatabase
      = some { demoReceipt "bob" "alice" "2" false with index := some 1 } ∧
    ∃ before r after, demoDatabase = before ++ r :: after ∧
      selectedReceipt (demoEnv "0" []) demoDatabase
        = some { r with index := some (pairReceipts (demoEnv "0" []) before).length } ∧
      pairMatches (demoEnv "0" []).getAccounts.1 (demoEnv "0" []).getAccounts.2 r = true ∧
      (∀ other, pairReceipts (demoEnv "0" []) other = pairReceipts (demoEnv "0" []) demoDatabase →
        selectedReceipt (demoEnv "0" []) other
          = selectedReceipt (demoEnv "0" []) demoDatabase) ∧
      (∀ y ∈ demoDatabase,
        pairMatches (demoEnv "0" []).getAccounts.1 (demoEnv "0" []).getAccounts.2 y = true →
        ((demoEnv "0" []).parseInt r.state.nonce).lt
          ((demoEnv "0" []).parseInt y.state.nonce) = false) ∧
      (∀ y ∈ before,
        pairMatches (demoEnv "0" []).getAccounts.1 (demoEnv "0" []).getAccounts.2 y = true →
        ((demoEnv "0" []).parseInt y.state.nonce).ge
          ((demoEnv "0" []).parseInt r.state.nonce) = false) ∧
      ((∀ y ∈ demoDatabase,
          pairMatches (demoEnv "0" []).getAccounts.1 (demoEnv "0" []).getAccounts.2 y = true →
          (demoEnv "0" []).parseInt y.state.nonce ≠ .nan) →
        (∀ y ∈ demoDatabase,
          pairMatches (demoEnv "0" []).getAccounts.1 (demoEnv "0" []).getAccounts.2 y = true →
          ((demoEnv "0" []).parseInt r.state.nonce).ge
            ((demoEnv "0" []).parseInt y.state.nonce) = true) ∧
        (∀ y ∈ before,
          pairMatches (demoEnv "0" []).getAccounts.1 (demoEnv "0" []).getAccounts.2 y = true →
          ((demoEnv "0" []).parseInt y.state.nonce).lt
            ((demoEnv "0" []).parseInt r.state.nonce) = true)) :=
  ⟨by decide, by decide, by decide,
    updateChannel_selects_first_maximum (demoEnv "0" []) demoDatabase (by decide)⟩

/-- C2 (evaluation at the failing input): on a database holding a receipt of
(carol, dave) and an uncommitted receipt of (alice, bob), a confirmed run of
`updateChannel` writes back a database from which the receipt of (carol, dave)
is gone and in which the remaining receipt has gained the field `index`. -/
theorem updateChannel_writes_filtered_receipts :
    (updateChannel (demoEnv "0" demoConfirmed)
      [demoReceipt "carol" "dave" "9" false, demoReceipt "alice" "bob" "1" false]).written
      = some [{ demoReceipt "alice" "bob" "1" true with index := some 0 }] ∧
    (updateChannel (demoEnv "0" demoConfirmed)
      [demoReceipt "carol" "dave" "9" false, demoReceipt "alice" "bob" "1" false]).completion
      = .returned := by
  decide

/-- C3 (counterexample): the database holds an uncommitted receipt of the pair
with nonce 1 and a committed one with nonce 2; `updateChannel` selects the
committed receipt, not the uncommitted one, and submits nothing. -/
theorem updateChannel_committed_maximum_blocks :
    (∃ r ∈ [demoReceipt "alice" "bob" "1" false, demoReceipt "alice" "bob" "2" true],
      pairMatches (demoEnv "0" demoConfirmed).getAccounts.1
        (demoEnv "0" demoConfirmed).getAccounts.2 r = true ∧ r.committed = false) ∧
    ¬ (∃ last, selectedReceipt (demoEnv "0" demoConfirmed)
        [demoReceipt "alice" "bob" "1" false, demoReceipt "alice" "bob" "2" true] = some last ∧
      last.committed = false) ∧
    updateChannel (demoEnv "0" demoConfirmed)
        [demoReceipt "alice" "bob" "1" false, demoReceipt "alice" "bob" "2" true]
      = { console := ["\t> Last receipt (nonce: 2) is marked as committed, skipping"],
          ledger := [], written := none, completion := .returned } := by
  refine ⟨by decide, ?_, by decide⟩
  rintro ⟨last, hsel, hc⟩
  have : selectedReceipt (demoEnv "0" demoConfirmed)
      [demoReceipt "alice" "bob" "1" false, demoReceipt "alice" "bob" "2" true]
      = some { demoReceipt "alice" "bob" "2" true with index := some 1 } := by decide
  rw [this] at hsel
  cases hsel
  simp [demoReceipt] at hc

/-- C3 (amended): in a database where the pair has an uncommitted receipt,
`updateChannel` selects the first pair-matching receipt `r` of highest nonce,
committed or not, ignoring the receipts of other pairs (no pair-matching
receipt has a nonce above the nonce of `r` and no earlier one a nonce `>=` it;
on numeric nonces: `r` has a nonce `>=` every pair-matching nonce, and every
earlier pair-matching receipt a nonce strictly below).  When `r` is
uncommitted, it is the receipt the run goes on with: the nonce of the ledger
is compared with the nonce of `r`; if the ledger's is `>=`, the run reads the
channel and nothing else, and otherwise it submits `updateChannelState` with
the state of `r` and the two signatures of `r`, and once the transaction is
confirmed it writes the pair's receipts with the one at the position of `r`
marked committed.  When `r` is committed, the run skips and touches neither
the ledger nor the database, whatever uncommitted receipts of lower nonce
there are. -/
theorem updateChannel_selects_maximum_then_checks_committed (env : Env N)
    (database : List Receipt)
    (hpair : ∃ r ∈ database,
      pairMatches env.getAccounts.1 env.getAccounts.2 r = true ∧ r.committed = false) :
    ∃ before r after, database = before ++ r :: after ∧
      pairMatches env.getAccounts.1 env.getAccounts.2 r = true ∧
      selectedReceipt env database
        = some { r with index := some (pairReceipts env before).length } ∧
      (∀ y ∈ database, pairMatches env.getAccounts.1 env.getAccounts.2 y = true →
        (env.parseInt r.state.nonce).lt (env.parseInt y.state.nonce) = false) ∧
      (∀ y ∈ before, pairMatches env.getAccounts.1 env.getAccounts.2 y = true →
        (env.parseInt y.state.nonce).ge (env.parseInt r.state.nonce) = false) ∧
      ((∀ y ∈ database, pairMatches env.getAccounts.1 env.getAccounts.2 y = true →
          env.parseInt y.state.nonce ≠ .nan) →
        (∀ y ∈ database, pairMatches env.getAccounts.1 env.getAccounts.2 y = true →
          (env.parseInt r.state.nonce).ge (env.parseInt y.state.nonce) = true) ∧
        (∀ y ∈ before, pairMatches env.getAccounts.1 env.getAccounts.2 y = true →
          (env.parseInt y.state.nonce).lt (env.parseInt r.state.nonce) = true)) ∧
      (r.committed = false →
        ((env.parseInt (env.channels (readChannelId env)).nonce).ge
            (env.parseInt r.state.nonce) = true →
          (updateChannel env database).ledger = [.channels (readChannelId env)] ∧
          (updateChannel env database).written = none) ∧
        ((env.parseInt (env.channels (readChannelId env)).nonce).ge
            (env.parseInt r.state.nonce) = false →
          (updateChannel env database).ledger =
            [.channels (readChannelId env),
              .updateChannelState r.state r.sig0.signature r.sig1.signature
                env.getAccounts.1] ∧
          ((awaitConfirmation (env.send r.state r.sig0.signature r.sig1.signature
              env.getAccounts.1)).2 = .resolved →
            (updateChannel env database).written =
              markCommitted (afterReduce (pairReceipts env database))
                (pairReceipts env before).length))) ∧
      (r.committed = true →
        updateChannel env database =
          { console := ["\t> Last receipt (nonce: " ++ r.state.nonce ++
              ") is marked as committed, skipping"],
            ledger := [], written := none, completion := .returned }) := by
  obtain ⟨u, hu, hup, _⟩ := hpair
  obtain ⟨before, r, after, hdb, hsel, hr, hmax, hfirst⟩ :=
    selectedReceipt_first_maximum env database ⟨u, hu, hup⟩
  refine ⟨before, r, after, hdb, hr, hsel, hmax, hfirst, ?_, ?_, ?_⟩
  · intro hnum
    subst hdb
    exact numeric_first_maximum env before r after hr hmax hfirst hnum
  · intro hc
    rw [updateChannel_of_selected env database _ hsel]
    refine ⟨?_, ?_⟩
    · intro hg
      simp [hc, hg]
    · intro hg
      refine ⟨by simp [hc, hg], ?_⟩
      intro hres
      simp [hc, hg, hres]
  · intro hc
    rw [updateChannel_of_selected env database _ hsel]
    simp [hc]

/-- Witness of the amended C3 on `demoDatabase`, with a ledger nonce of 0 and
a confirmed transaction: the receipt selected is the third of the database,
the first of the two of nonce 2; it is uncommitted, and the run submits its
state `(bob, 2, alice, 30, 70)` with its two signatures and writes the three
receipts of the pair with the second marked committed. -/
theorem updateChannel_selects_maximum_then_checks_committed_witness :
    (∃ r ∈ demoDatabase,
      pairMatches (demoEnv "0" demoConfirmed).getAccounts.1
        (demoEnv "0" demoConfirmed).getAccounts.2 r = true ∧ r.committed = false) ∧
    selectedReceipt (demoEnv "0" demoConfirmed) demoDatabase
      = some { demoReceipt "bob" "alice" "2" false with index := some 1 } ∧
    (updateChannel (demoEnv "0" demoConfirmed) demoDatabase).ledger
      = [.channels (readChannelId (demoEnv "0" demoConfirmed)),
          .updateChannelState ⟨"bob", "2", "alice", "30", "70"⟩ "keyAh2" "keyBh2" "alice"] ∧
    (updateChannel (demoEnv "0" demoConfirmed) demoDatabase).written
      = some [{ demoReceipt "alice" "bob" "1" false with index := some 0 },
          demoReceipt "bob" "alice" "2" true, demoReceipt "alice" "bob" "2" true] ∧
    ∃ before r after, demoDatabase = before ++ r :: after ∧
      pairMatches (demoEnv "0" demoConfirmed).getAccounts.1
        (demoEnv "0" demoConfirmed).getAccounts.2 r = true ∧
      selectedReceipt (demoEnv "0" demoConfirmed) demoDatabase
        = some { r with
            index := some (pairReceipts (demoEnv "0" demoConfirmed) before).length } ∧
      (∀ y ∈ demoDatabase,
        pairMatches (demoEnv "0" demoConfirmed).getAccounts.1
          (demoEnv "0" demoConfirmed).getAccounts.2 y = true →
        ((demoEnv "0" demoConfirmed).parseInt r.state.nonce).lt
          ((demoEnv "0" demoConfirmed).parseInt y.state.nonce) = false) ∧
      (∀ y ∈ before,
        pairMatches (demoEnv "0" demoConfirmed).getAccounts.1
          (demoEnv "0" demoConfirmed).getAccounts.2 y = true →
        ((demoEnv "0" demoConfirmed).parseInt y.state.nonce).ge
          ((demoEnv "0" demoConfirmed).parseInt r.state.nonce) = false) ∧
      ((∀ y ∈ demoDatabase,
          pairMatches (demoEnv "0" demoConfirmed).getAccounts.1
            (demoEnv "0" demoConfirmed).getAccounts.2 y = true →
          (demoEnv "0" demoConfirmed).parseInt y.state.nonce ≠ .nan) →
        (∀ y ∈ demoDatabase,
          pairMatches (demoEnv "0" demoConfirmed).getAccounts.1
            (demoEnv "0" demoConfirmed).getAccounts.2 y = true →
          ((demoEnv "0" demoConfirmed).parseInt r.state.nonce).ge
            ((demoEnv "0" demoConfirmed).parseInt y.state.nonce) = true) ∧
        (∀ y ∈ before,
          pairMatches (demoEnv "0" demoConfirmed).getAccounts.1
            (demoEnv "0" demoConfirmed).getAccounts.2 y = true →
          ((demoEnv "0" demoConfirmed).parseInt y.state.nonce).lt
            ((demoEnv "0" demoConfirmed).parseInt r.state.nonce) = true)) ∧
      (r.committed = false →
        (((demoEnv "0" demoConfirmed).parseInt
            ((demoEnv "0" demoConfirmed).channels
              (readChannelId (demoEnv "0" demoConfirmed))).nonce).ge
            ((demoEnv "0" demoConfirmed).parseInt r.state.nonce) = true →
          (updateChannel (demoEnv "0" demoConfirmed) demoDatabase).ledger
            = [.channels (readChannelId (demoEnv "0" demoConfirmed))] ∧
          (updateChannel (demoEnv "0" demoConfirmed) demoDatabase).written = none) ∧
        (((demoEnv "0" demoConfirmed).parseInt
            ((demoEnv "0" demoConfirmed).channels
              (readChannelId (demoEnv "0" demoConfirmed))).nonce).ge
            ((demoEnv "0" demoConfirmed).parseInt r.state.nonce) = false →
          (updateChannel (demoEnv "0" demoConfirmed) demoDatabase).ledger =
            [.channels (readChannelId (demoEnv "0" demoConfirmed)),
              .updateChannelState r.state r.sig0.signature r.sig1.signature
                (demoEnv "0" demoConfirmed).getAccounts.1] ∧
          ((awaitConfirmation ((demoEnv "0" demoConfirmed).send r.state r.sig0.signature
              r.sig1.signature (demoEnv "0" demoConfirmed).getAccounts.1)).2 = .resolved →
            (updateChannel (demoEnv "0" demoConfirmed) demoDatabase).written =
              markCommitted (afterReduce (pairReceipts (demoEnv "0" demoConfirmed) demoDatabase))
                (pairReceipts (demoEnv "0" demoConfirmed) before).length))) ∧
      (r.committed = true →
        updateChannel (demoEnv "0" demoConfirmed) demoDatabase =
          { console := ["\t> Last receipt (nonce: " ++ r.state.nonce ++
              ") is marked as committed, skipping"],
            ledger := [], written := none, completion := .returned }) :=
  ⟨by decide, by decide, by decide, by decide,
    updateChannel_selects_maximum_then_checks_committed (demoEnv "0" demoConfirmed)
      demoDatabase (by decide)⟩

/-- C4: for the selected receipt and the channel record the ledger returns,
if `parseInt(previousState.nonce) >= parseInt(state[1])` the run submits no
`updateChannelState` and does not write the database, which stays as it was
(the receipt stays uncommitted); and if the nonce of the selected, uncommitted
receipt is strictly greater than the ledger's, the run submits
`updateChannelState` with the receipt's state and signatures. -/
theorem updateChannel_stale_nonce_gate (env : Env N) (database : List Receipt)
    (last : Receipt) (hsel : selectedReceipt env database = some last) :
    ((env.parseInt (env.channels (readChannelId env)).nonce).ge
        (env.parseInt last.state.nonce) = true →
      (∀ state sig0 sig1 sender,
        LedgerCall.updateChannelState state sig0 sig1 sender
          ∉ (updateChannel env database).ledger) ∧
      (updateChannel env database).written = none ∧
      (updateChannel env database).store database = database) ∧
    (last.committed = false →
      (env.parseInt (env.channels (readChannelId env)).nonce).lt
        (env.parseInt last.state.nonce) = true →
      LedgerCall.updateChannelState last.state last.sig0.signature last.sig1.signature
          env.getAccounts.1 ∈ (updateChannel env database).ledger) := by
  rw [updateChannel_of_selected env database last hsel]
  constructor
  · intro hg
    cases hc : last.committed <;> simp [hg, Run.store]
  · intro hc hl
    have hg := JSNumber.ge_eq_false_of_lt hl
    simp [hc, hg]

/-- Witness of C4: a stale receipt (ledger nonce 1, receipt nonce 1). -/
theorem updateChannel_stale_nonce_gate_witness :
    selectedReceipt (demoEnv "1" demoConfirmed) [demoReceipt "alice" "bob" "1" false]
      = some { demoReceipt "alice" "bob" "1" false with index := some 0 } ∧
    ((demoEnv "1" demoConfirmed).parseInt
        ((demoEnv "1" demoConfirmed).channels (readChannelId (demoEnv "1" demoConfirmed))).nonce).ge
      ((demoEnv "1" demoConfirmed).parseInt "1") = true ∧
    (∀ state sig0 sig1 sender,
      LedgerCall.updateChannelState state sig0 sig1 sender
        ∉ (updateChannel (demoEnv "1" demoConfirmed)
            [demoReceipt "alice" "bob" "1" false]).ledger) ∧
    (updateChannel (demoEnv "1" demoConfirmed)
      [demoReceipt "alice" "bob" "1" false]).written = none ∧
    (updateChannel (demoEnv "1" demoConfirmed) [demoReceipt "alice" "bob" "1" false]).store
      [demoReceipt "alice" "bob" "1" false] = [demoReceipt "alice" "bob" "1" false] :=
  ⟨by decide, by decide,
    (updateChannel_stale_nonce_gate (demoEnv "1" demoConfirmed)
      [demoReceipt "alice" "bob" "1" false]
      { demoReceipt "alice" "bob" "1" false with index := some 0 } (by decide)).1
      (by decide)⟩

/-- C5: when the selected receipt is already marked committed, the run makes
no ledger call at all (neither `channels` nor `updateChannelState`) and does
not write the database, which stays as it was. -/
theorem updateChannel_committed_selection_skips (env : Env N) (database : List Receipt)
    (last : Receipt) (hsel : selectedReceipt env database = some last)
    (hc : last.committed = true) :
    (updateChannel env database).ledger = [] ∧
    (updateChannel env database).written = none ∧
    (updateChannel env database).store database = database ∧
    (updateChannel env database).completion = .returned := by
  rw [updateChannel_of_selected env database last hsel]
  simp [hc, Run.store]

/-- Witness of C5 on a database whose receipt of highest nonce is committed. -/
theorem updateChannel_committed_selection_skips_witness :
    selectedReceipt (demoEnv "0" demoConfirmed)
        [demoReceipt "alice" "bob" "3" true, demoReceipt "alice" "bob" "1" false]
      = some { demoReceipt "alice" "bob" "3" true with index := some 0 } ∧
    (updateChannel (demoEnv "0" demoConfirmed)
      [demoReceipt "alice" "bob" "3" true, demoReceipt "alice" "bob" "1" false]).ledger = [] ∧
    (updateChannel (demoEnv "0" demoConfirmed)
      [demoReceipt "alice" "bob" "3" true, demoReceipt "alice" "bob" "1" false]).written
      = none ∧
    (updateChannel (demoEnv "0" demoConfirmed)
      [demoReceipt "alice" "bob" "3" true, demoReceipt "alice" "bob" "1" false]).store
        [demoReceipt "alice" "bob" "3" true, demoReceipt "alice" "bob" "1" false]
      = [demoReceipt "alice" "bob" "3" true, demoReceipt "alice" "bob" "1" false] ∧
    (updateChannel (demoEnv "0" demoConfirmed)
      [demoReceipt "alice" "bob" "3" true, demoReceipt "alice" "bob" "1" false]).completion
      = .returned :=
  ⟨by decide,
    updateChannel_committed_selection_skips (demoEnv "0" demoConfirmed)
      [demoReceipt "alice" "bob" "3" true, demoReceipt "alice" "bob" "1" false]
      { demoReceipt "alice" "bob" "3" true with index := some 0 } (by decide) (by decide)⟩

/-- C6: when no receipt of the database has the participants (alice, bob) or
(bob, alice) -- the empty database included -- the run logs that no receipts
were found, makes no ledger call and does not write the database, which stays
as it was. -/
theorem updateChannel_no_receipts (env : Env N) (database : List Receipt)
    (hnone : ∀ r ∈ database, pairMatches env.getAccounts.1 env.getAccounts.2 r = false) :
    updateChannel env database =
      { console := ["> No receipts found in database"], ledger := [], written := none,
        completion := .returned } ∧
    (updateChannel env database).store database = database := by
  have hsel := selectedReceipt_eq_none env database hnone
  unfold selectedReceipt at hsel
  have hrun : updateChannel env database =
      { console := ["> No receipts found in database"], ledger := [], written := none,
        completion := .returned } := by
    unfold updateChannel
    simp only [hsel]
  exact ⟨hrun, by rw [hrun]; rfl⟩

/-- Witness of C6 on a database that only holds a receipt of (carol, dave). -/
theorem updateChannel_no_receipts_witness :
    (∀ r ∈ [demoReceipt "carol" "dave" "9" false],
      pairMatches (demoEnv "0" demoConfirmed).getAccounts.1
        (demoEnv "0" demoConfirmed).getAccounts.2 r = false) ∧
    updateChannel (demoEnv "0" demoConfirmed) [demoReceipt "carol" "dave" "9" false] =
      { console := ["> No receipts found in database"], ledger := [], written := none,
        completion := .returned } ∧
    (updateChannel (demoEnv "0" demoConfirmed) [demoReceipt "carol" "dave" "9" false]).store
      [demoReceipt "carol" "dave" "9" false] = [demoReceipt "carol" "dave" "9" false] :=
  ⟨by decide,
    updateChannel_no_receipts (demoEnv "0" demoConfirmed)
      [demoReceipt "carol" "dave" "9" false] (by decide)⟩

/-- C7: for the selected, uncommitted receipt that passes the nonce pre-check,
if the transaction emits `error e` before any confirmation numbered 2, the
run fails with that very `e` and the database is not written, so the receipt
stays uncommitted; and whenever the run writes the database (the only place
where `committed` is set), the transaction has emitted a confirmation
numbered exactly 2, with no error before it. -/
theorem updateChannel_rejection_leaves_store (env : Env N) (database : List Receipt)
    (last : Receipt) (hsel : selectedReceipt env database = some last) :
    (last.committed = false →
      (env.parseInt (env.channels (readChannelId env)).nonce).ge
        (env.parseInt last.state.nonce) = false →
      ∀ pre e post,
        env.send last.state last.sig0.signature last.sig1.signature env.getAccounts.1
          = pre ++ .error e :: post →
        (∀ ev ∈ pre, ev.settles = false) →
        (updateChannel env database).completion = .threw (.rejected e) ∧
        (updateChannel env database).written = none ∧
        (updateChannel env database).store database = database) ∧
    (∀ receipts, (updateChannel env database).written = some receipts →
      ∃ pre t post,
        env.send last.state last.sig0.signature last.sig1.signature env.getAccounts.1
          = pre ++ .confirmation 2 t :: post ∧
        ∀ ev ∈ pre, ev.settles = false) := by
  rw [updateChannel_of_selected env database last hsel]
  constructor
  · intro hc hfresh pre e post hev hpre
    have hw := awaitConfirmation_error pre e post hpre
    rw [← hev] at hw
    simp [hc, hfresh, hw, Run.store]
  · intro receipts hwritten
    apply awaitConfirmation_resolved
    cases hc : last.committed
    · cases hfresh : (env.parseInt (env.channels (readChannelId env)).nonce).ge
          (env.parseInt last.state.nonce)
      · simp only [hc, hfresh, Bool.false_eq_true, if_false] at hwritten
        cases hw : (awaitConfirmation
          (env.send last.state last.sig0.signature last.sig1.signature
            env.getAccounts.1)).2 with
        | resolved => rfl
        | rejected e => simp [hw] at hwritten
        | pending => simp [hw] at hwritten
      · simp [hc, hfresh] at hwritten
    · simp [hc] at hwritten

/-- Witness of C7: the transaction is mined, then fails before its second
confirmation. -/
theorem updateChannel_rejection_leaves_store_witness :
    selectedReceipt
        (demoEnv "0" [.receipt "0xabc", .confirmation 1 "0xabc", .error "reverted"])
        [demoReceipt "alice" "bob" "1" false]
      = some { demoReceipt "alice" "bob" "1" false with index := some 0 } ∧
    (updateChannel (demoEnv "0" [.receipt "0xabc", .confirmation 1 "0xabc", .error "reverted"])
      [demoReceipt "alice" "bob" "1" false]).completion = .threw (.rejected "reverted") ∧
    (updateChannel (demoEnv "0" [.receipt "0xabc", .confirmation 1 "0xabc", .error "reverted"])
      [demoReceipt "alice" "bob" "1" false]).written = none ∧
    (updateChannel (demoEnv "0" [.receipt "0xabc", .confirmation 1 "0xabc", .error "reverted"])
      [demoReceipt "alice" "bob" "1" false]).store [demoReceipt "alice" "bob" "1" false]
      = [demoReceipt "alice" "bob" "1" false] :=
  ⟨by decide,
    (updateChannel_rejection_leaves_store
      (demoEnv "0" [.receipt "0xabc", .confirmation 1 "0xabc", .error "reverted"])
      [demoReceipt "alice" "bob" "1" false]
      { demoReceipt "alice" "bob" "1" false with index := some 0 }
      (by decide)).1 (by decide) (by decide)
      [.receipt "0xabc", .confirmation 1 "0xabc"] "reverted" [] (by decide) (by decide)⟩

end Claims

/-- C8: a call of `signReceipt` whose `balance0` and `balance1` are big
numbers writes the old database with exactly one receipt appended at the end,
every earlier receipt staying at its position; the new receipt is
uncommitted (and carries no `index`), its state is
`[alice, nonce, bob, balance0, balance1]`, its hash
is the hash of that state, `sig0` is the signature of that hash by the key of
participant0 and `sig1` the signature of that hash by the key of
participant1. -/
theorem signReceipt_appends_receipt {N : Type} (env : Env N) (database : List Receipt)
    (balance0 balance1 : Int) (nonce : JSValue) :
    ∃ receipt : Receipt,
      (signReceipt env database (.bn balance0) (.bn balance1) nonce).written
        = some (database ++ [receipt]) ∧
      (signReceipt env database (.bn balance0) (.bn balance1) nonce).store database
        = database ++ [receipt] ∧
      (∀ i, i < database.length →
        ((signReceipt env database (.bn balance0) (.bn balance1) nonce).store database)[i]?
          = database[i]?) ∧
      receipt.committed = false ∧ receipt.index = none ∧
      receipt.state = ⟨env.getAccounts.1, nonce.toString, env.getAccounts.2,
        (JSValue.bn balance0).toString, (JSValue.bn balance1).toString⟩ ∧
      receipt.hash = env.hashState receipt.state ∧
      receipt.sig0 = env.sign receipt.hash env.privateKeys.1 ∧
      receipt.sig1 = env.sign receipt.hash env.privateKeys.2 ∧
      receipt.state.participant0 = env.addressOf env.privateKeys.1 ∧
      receipt.state.participant1 = env.addressOf env.privateKeys.2 := by
  refine ⟨_, rfl, rfl, ?_, rfl, rfl, rfl, rfl, rfl, rfl, rfl, rfl⟩
  intro i hi
  simp only [Run.store, signReceipt, isBN, Bool.not_true, Bool.false_eq_true, if_false,
    Option.getD_some]
  exact List.getElem?_append_left hi

/-- C9 (evaluation at the failing input): the database holds one receipt whose
state names the pair as (bob, alice).  `updateChannel` selects it, reads the
channel record of (alice, bob) for the nonce pre-check and then submits the
state of (bob, alice), whose channel identifier is another one. -/
theorem updateChannel_reads_channel_of_accounts :
    selectedReceipt (demoEnv "0" demoConfirmed) [demoReceipt "bob" "alice" "1" false]
      = some { demoReceipt "bob" "alice" "1" false with index := some 0 } ∧
    (updateChannel (demoEnv "0" demoConfirmed) [demoReceipt "bob" "alice" "1" false]).ledger
      = [.channels (keccak256 (encodePacked "alice" "bob")),
          .updateChannelState ⟨"bob", "1", "alice", "30", "70"⟩ "keyAh1" "keyBh1" "alice"] ∧
    keccak256 (encodePacked "bob" "alice") ≠ keccak256 (encodePacked "alice" "bob") := by
  decide

/-! ## The ledger contract: invariant and bootstrap -/

theorem Ledger.spentBelowNonce_initial : Ledger.initial.SpentBelowNonce := by
  intro state h
  simp [Ledger.initial] at h

theorem Ledger.spentBelowNonce_step (recover : Recover) (ledger : Ledger) (call : Call)
    (hinv : ledger.SpentBelowNonce) : (ledger.step recover call).SpentBelowNonce := by
  unfold Ledger.step
  cases hcall : ledger.call recover call with
  | error reason => exact hinv
  | ok result =>
    obtain ⟨next, events⟩ := result
    show next.SpentBelowNonce
    cases call with
    | mint amount sender =>
      simp only [Ledger.call, Ledger.mint] at hcall
      split at hcall
      · cases hcall
      · cases hcall
        exact hinv
    | updateChannelState state sig0 sig1 sender =>
      simp only [Ledger.call, Ledger.updateChannelState] at hcall
      split at hcall; · cases hcall
      split at hcall; · cases hcall
      split at hcall; · cases hcall
      split at hcall; · cases hcall
      split at hcall; · cases hcall
      rename_i hnonce
      split at hcall; · cases hcall
      cases hcall
      intro s hs
      have hnonce : (ledger.channels (channelIdOf state.participant0 state.participant1)).nonce
          < state.nonce := by omega
      by_cases hst : hashState s = hashState state
      · have : s = state := by
          have := congrArg StateHash.preimage hst
          simpa [hashState] using this
        subst this
        simp
      · simp only [Function.update_noteq hst] at hs
        have hold := hinv s hs
        by_cases hid : channelIdOf s.participant0 s.participant1
            = channelIdOf state.participant0 state.participant1
        · rw [hid]
          simp only [Function.update_same]
          rw [hid] at hold
          omega
        · simp only [Function.update_noteq hid]
          exact hold
    | resetChannelState participant0 participant1 sender =>
      simp only [Ledger.call, Ledger.resetChannelState] at hcall
      split at hcall; · cases hcall
      split at hcall; · cases hcall
      cases hcall
      intro s hs
      have hold := hinv s hs
      by_cases hid : channelIdOf s.participant0 s.participant1
          = channelIdOf participant0 participant1
      · rw [hid]
        simp only [Function.update_same]
        rw [hid] at hold
        exact hold
      · simp only [Function.update_noteq hid]
        exact hold

theorem Ledger.spentBelowNonce_foldl (recover : Recover) (calls : List Call) :
    ∀ ledger : Ledger, ledger.SpentBelowNonce →
      (calls.foldl (Ledger.step recover) ledger).SpentBelowNonce := by
  induction calls with
  | nil => intro ledger h; exact h
  | cons call calls ih =>
    intro ledger h
    exact ih _ (Ledger.spentBelowNonce_step recover ledger call h)

theorem Ledger.spentBelowNonce_of_reachable (recover : Recover) (ledger : Ledger)
    (h : ledger.Reachable recover) : ledger.SpentBelowNonce := by
  obtain ⟨calls, rfl⟩ := h
  exact Ledger.spentBelowNonce_foldl recover calls _ Ledger.spentBelowNonce_initial

/-- C10: on a contract storage reached since deployment, for an empty channel
(balances 0) and a state of two distinct participants, signed by both, sent by
one of them, with a nonce above the record's and free balances of at least
`balance0` and `balance1`, `updateChannelState` succeeds; afterwards the
record is `(balance0, balance1, nonce)` of the state, the free balance of
participant0 has decreased by exactly `balance0` and that of participant1 by
exactly `balance1`, and one event `ChannelUpdated` carries the channel
identifier, both participants, both balances and the nonce. -/
theorem updateChannelState_bootstraps_empty_channel (recover : Recover) (ledger : Ledger)
    (state : State) (sig0 sig1 : String) (sender : Address)
    (hreach : ledger.Reachable recover)
    (hdistinct : state.participant0 ≠ state.participant1)
    (hempty0 : (ledger.channels
      (channelIdOf state.participant0 state.participant1)).balance0 = 0)
    (hempty1 : (ledger.channels
      (channelIdOf state.participant0 state.participant1)).balance1 = 0)
    (hsig0 : recover (hashState state) sig0 = state.participant0)
    (hsig1 : recover (hashState state) sig1 = state.participant1)
    (hsender : sender = state.participant0 ∨ sender = state.participant1)
    (hnonce : (ledger.channels
      (channelIdOf state.participant0 state.participant1)).nonce < state.nonce)
    (hfree0 : state.balance0 ≤ ledger.balances state.participant0)
    (hfree1 : state.balance1 ≤ ledger.balances state.participant1) :
    ∃ next : Ledger,
      ledger.updateChannelState recover state sig0 sig1 sender
        = .ok (next, [⟨channelIdOf state.participant0 state.participant1,
            state.participant0, state.participant1, state.balance0, state.balance1,
            state.nonce⟩]) ∧
      next.channels (channelIdOf state.participant0 state.participant1)
        = ⟨state.balance0, state.balance1, state.nonce⟩ ∧
      next.balances state.participant0 + state.balance0
        = ledger.balances state.participant0 ∧
      next.balances state.participant1 + state.balance1
        = ledger.balances state.participant1 := by
  have hinv := Ledger.spentBelowNonce_of_reachable recover ledger hreach
  have hfresh : ledger.committedHashes (hashState state) = false := by
    by_contra hspent
    have := hinv state (by simpa using hspent)
    omega
  have hsender' : ¬ (sender ≠ state.participant0 ∧ sender ≠ state.participant1) := by
    rcases hsender with h | h <;> simp [h]
  have hlock : lockFunds ledger.balances
      (ledger.channels (channelIdOf state.participant0 state.participant1)) state
      = .ok (Function.update
          (Function.update ledger.balances state.participant0
            (ledger.balances state.participant0 - state.balance0))
          state.participant1 (ledger.balances state.participant1 - state.balance1)) := by
    unfold lockFunds
    have h1 : ¬ ledger.balances state.participant0 < state.balance0 := by omega
    have hne : state.participant1 ≠ state.participant0 := fun h => hdistinct h.symm
    simp only [hempty0, hempty1, and_self, if_true, h1, if_false,
      Function.update_noteq hne]
    have h2 : ¬ ledger.balances state.participant1 < state.balance1 := by omega
    simp only [h2, if_false]
  refine ⟨⟨Function.update
      (Function.update ledger.balances state.participant0
        (ledger.balances state.participant0 - state.balance0))
      state.participant1 (ledger.balances state.participant1 - state.balance1),
    Function.update ledger.channels (channelIdOf state.participant0 state.participant1)
      ⟨state.balance0, state.balance1, state.nonce⟩,
    Function.update ledger.committedHashes (hashState state) true⟩, ?_, ?_, ?_, ?_⟩
  · unfold Ledger.updateChannelState
    simp only [hsig0, hsig1, ne_eq, not_true_eq_false, if_false, hsender', hfresh,
      Bool.false_eq_true, Nat.not_le.2 hnonce, hlock]
  · simp
  · simp only [Function.update_noteq hdistinct, Function.update_same]
    omega
  · simp only [Function.update_same]
    omega

/-- Witness of C10: after alice and bob have minted 100 each, alice submits
the state `(alice, 1, bob, 30, 70)` signed by both. -/
theorem updateChannelState_bootstraps_empty_channel_witness :
    demoLedger.Reachable demoRecover ∧
    demoRecover (hashState ⟨"alice", 1, "bob", 30, 70⟩) "alice:1" = "alice" ∧
    demoRecover (hashState ⟨"alice", 1, "bob", 30, 70⟩) "bob:1" = "bob" ∧
    (30 : Nat) ≤ demoLedger.balances "alice" ∧ (70 : Nat) ≤ demoLedger.balances "bob" ∧
    ∃ next : Ledger,
      demoLedger.updateChannelState demoRecover ⟨"alice", 1, "bob", 30, 70⟩ "alice:1" "bob:1"
          "alice"
        = .ok (next, [⟨channelIdOf "alice" "bob", "alice", "bob", 30, 70, 1⟩]) ∧
      next.channels (channelIdOf "alice" "bob") = ⟨30, 70, 1⟩ ∧
      next.balances "alice" + 30 = demoLedger.balances "alice" ∧
      next.balances "bob" + 70 = demoLedger.balances "bob" :=
  ⟨⟨_, rfl⟩, by decide, by decide, by decide, by decide,
    updateChannelState_bootstraps_empty_channel demoRecover demoLedger
      ⟨"alice", 1, "bob", 30, 70⟩ "alice:1" "bob:1" "alice" ⟨_, rfl⟩ (by decide) (by decide)
      (by decide) (by decide) (by decide) (by decide) (by decide) (by decide) (by decide)⟩

/-! ## The ledger contract: rejections and monotonicity -/

theorem Ledger.step_of_error (recover : Recover) (ledger : Ledger) (call : Call)
    (reason : Revert) (h : ledger.call recover call = .error reason) :
    ledger.step recover call = ledger := by
  unfold Ledger.step
  rw [h]

/-- What an accepted `updateChannelState` has checked and written. -/
theorem Ledger.updateChannelState_ok (recover : Recover) (ledger next : Ledger)
    (state : State) (sig0 sig1 : String) (sender : Address) (events : List ChannelUpdated)
    (h : ledger.updateChannelState recover state sig0 sig1 sender = .ok (next, events)) :
    recover (hashState state) sig0 = state.participant0 ∧
    recover (hashState state) sig1 = state.participant1 ∧
    (sender = state.participant0 ∨ sender = state.participant1) ∧
    ledger.committedHashes (hashState state) = false ∧
    (ledger.channels (channelIdOf state.participant0 state.participant1)).nonce
      < state.nonce ∧
    next.channels = Function.update ledger.channels
      (channelIdOf state.participant0 state.participant1)
      ⟨state.balance0, state.balance1, state.nonce⟩ ∧
    next.committedHashes = Function.update ledger.committedHashes (hashState state) true := by
  simp only [Ledger.updateChannelState] at h
  split at h; · cases h
  rename_i h0
  split at h; · cases h
  rename_i h1
  split at h; · cases h
  rename_i hs
  split at h; · cases h
  rename_i hc
  split at h; · cases h
  rename_i hn
  split at h; · cases h
  cases h
  refine ⟨by simpa using h0, by simpa using h1, ?_, by simpa using hc, by omega, rfl, rfl⟩
  by_cases hp : sender = state.participant0
  · exact Or.inl hp
  · right
    by_contra hq
    exact hs ⟨hp, hq⟩

/-- What an accepted `resetChannelState` has written to the records. -/
theorem Ledger.resetChannelState_ok (ledger next : Ledger)
    (participant0 participant1 sender : Address) (events : List ChannelUpdated)
    (h : ledger.resetChannelState participant0 participant1 sender = .ok (next, events)) :
    next.channels = Function.update ledger.channels (channelIdOf participant0 participant1)
      ⟨0, 0, (ledger.channels (channelIdOf participant0 participant1)).nonce⟩ ∧
    next.committedHashes = ledger.committedHashes := by
  simp only [Ledger.resetChannelState] at h
  split at h; · cases h
  split at h; · cases h
  cases h
  exact ⟨rfl, rfl⟩

theorem Ledger.mint_ok (ledger next : Ledger) (amount : Nat) (sender : Address)
    (events : List ChannelUpdated) (h : ledger.mint amount sender = .ok (next, events)) :
    next.channels = ledger.channels ∧ next.committedHashes = ledger.committedHashes := by
  simp only [Ledger.mint] at h
  split at h; · cases h
  cases h
  exact ⟨rfl, rfl⟩

/-- A hash once accepted stays accepted. -/
theorem Ledger.committedHashes_step (recover : Recover) (ledger : Ledger) (call : Call)
    (hash : StateHash) (h : ledger.committedHashes hash = true) :
    (ledger.step recover call).committedHashes hash = true := by
  unfold Ledger.step
  cases hcall : ledger.call recover call with
  | error reason => exact h
  | ok result =>
    obtain ⟨next, events⟩ := result
    show next.committedHashes hash = true
    cases call with
    | mint amount sender =>
      rw [(Ledger.mint_ok ledger next amount sender events hcall).2]; exact h
    | updateChannelState state sig0 sig1 sender =>
      obtain ⟨_, _, _, _, _, _, hspent⟩ :=
        Ledger.updateChannelState_ok recover ledger next state sig0 sig1 sender events hcall
      rw [hspent]
      by_cases heq : hash = hashState state
      · rw [heq]; simp
      · rw [Function.update_noteq heq]; exact h
    | resetChannelState participant0 participant1 sender =>
      rw [(Ledger.resetChannelState_ok ledger next participant0 participant1 sender events
        hcall).2]
      exact h

theorem Ledger.committedHashes_foldl (recover : Recover) (calls : List Call)
    (hash : StateHash) :
    ∀ ledger : Ledger, ledger.committedHashes hash = true →
      (calls.foldl (Ledger.step recover) ledger).committedHashes hash = true := by
  induction calls with
  | nil => intro ledger h; exact h
  | cons call calls ih =>
    intro ledger h
    exact ih _ (Ledger.committedHashes_step recover ledger call hash h)

/-- No transaction lowers the nonce of a channel record. -/
theorem Ledger.nonce_le_step (recover : Recover) (ledger : Ledger) (call : Call)
    (channelId : Digest) :
    (ledger.channels channelId).nonce ≤ ((ledger.step recover call).channels channelId).nonce := by
  unfold Ledger.step
  cases hcall : ledger.call recover call with
  | error reason => exact Nat.le_refl _
  | ok result =>
    obtain ⟨next, events⟩ := result
    show (ledger.channels channelId).nonce ≤ (next.channels channelId).nonce
    cases call with
    | mint amount sender =>
      rw [(Ledger.mint_ok ledger next amount sender events hcall).1]
    | updateChannelState state sig0 sig1 sender =>
      obtain ⟨_, _, _, _, hnonce, hchannels, _⟩ :=
        Ledger.updateChannelState_ok recover ledger next state sig0 sig1 sender events hcall
      rw [hchannels]
      by_cases heq : channelId = channelIdOf state.participant0 state.participant1
      · rw [heq]; simp only [Function.update_same]; omega
      · rw [Function.update_noteq heq]
    | resetChannelState participant0 participant1 sender =>
      rw [(Ledger.resetChannelState_ok ledger next participant0 participant1 sender events
        hcall).1]
      by_cases heq : channelId = channelIdOf participant0 participant1
      · rw [heq]; simp only [Function.update_same]; exact Nat.le_refl _
      · rw [Function.update_noteq heq]

theorem Ledger.nonce_le_foldl (recover : Recover) (calls : List Call) (channelId : Digest) :
    ∀ ledger : Ledger, (ledger.channels channelId).nonce
      ≤ ((calls.foldl (Ledger.step recover) ledger).channels channelId).nonce := by
  induction calls with
  | nil => intro ledger; exact Nat.le_refl _
  | cons call calls ih =>
    intro ledger
    exact Nat.le_trans (Ledger.nonce_le_step recover ledger call channelId) (ih _)

/-- A call whose hash is already accepted is rejected, whoever sends it; the
reason is `hash was already committed` as soon as the signatures verify and
the sender participates. -/
theorem Ledger.updateChannelState_of_spent (recover : Recover) (ledger : Ledger)
    (state : State) (sig0 sig1 : String) (sender : Address)
    (hspent : ledger.committedHashes (hashState state) = true) :
    (∃ reason, ledger.updateChannelState recover state sig0 sig1 sender = .error reason) ∧
    (recover (hashState state) sig0 = state.participant0 →
      recover (hashState state) sig1 = state.participant1 →
      (sender = state.participant0 ∨ sender = state.participant1) →
      ledger.updateChannelState recover state sig0 sig1 sender
        = .error .hashAlreadyCommitted) := by
  constructor
  · unfold Ledger.updateChannelState
    simp only [hspent, if_true]
    split; · exact ⟨_, rfl⟩
    split; · exact ⟨_, rfl⟩
    split; · exact ⟨_, rfl⟩
    exact ⟨_, rfl⟩
  · intro h0 h1 hs
    have hs' : ¬ (sender ≠ state.participant0 ∧ sender ≠ state.participant1) := by
      rcases hs with h | h <;> simp [h]
    unfold Ledger.updateChannelState
    simp only [h0, h1, ne_eq, not_true_eq_false, if_false, hs', hspent, if_true]

/-- C11 (counterexample): `updateChannelState` accepts the state
`(alice, 1, bob, 30, 70)` with the signatures of alice and bob, sent by alice,
and the ledger becomes `demoFunded`; a later call with the same state and
signatures sent by mallory, who is not a participant of the state, is rejected
with `sender does not participate in this channel`, not with
`hash was already committed`: the sender is checked before the replay. -/
theorem updateChannelState_replay_by_outsider :
    (∃ events,
      demoLedger.updateChannelState demoRecover ⟨"alice", 1, "bob", 30, 70⟩ "alice:1" "bob:1"
        "alice" = .ok (demoFunded, events)) ∧
    demoFunded.updateChannelState demoRecover ⟨"alice", 1, "bob", 30, 70⟩ "alice:1" "bob:1"
      "mallory" = .error .senderDoesNotParticipate ∧
    demoFunded.updateChannelState demoRecover ⟨"alice", 1, "bob", 30, 70⟩ "alice:1" "bob:1"
      "mallory" ≠ .error .hashAlreadyCommitted := by
  refine ⟨⟨_, rfl⟩, rfl, ?_⟩
  have h : demoFunded.updateChannelState demoRecover ⟨"alice", 1, "bob", 30, 70⟩ "alice:1"
      "bob:1" "mallory" = .error .senderDoesNotParticipate := rfl
  rw [h]
  intro hne
  cases hne

/-- C11 (amended): once `updateChannelState` has accepted
`(state, sig0, sig1)`, then after any further transactions a call with the
same state and signatures is rejected and leaves the ledger as it is, whoever
sends it.  Sent by a participant of the state (as the accepted call was) it is
rejected with the reason `hash was already committed`, although the nonce
check would fail as well (the nonce of the state is not above the nonce of the
record); sent by anyone else it is rejected with
`sender does not participate in this channel`. -/
theorem updateChannelState_replay_rejected (recover : Recover) (ledger next : Ledger)
    (state : State) (sig0 sig1 : String) (sender : Address) (events : List ChannelUpdated)
    (haccepted : ledger.updateChannelState recover state sig0 sig1 sender = .ok (next, events))
    (calls : List Call) (later : Address) :
    (∃ reason, (calls.foldl (Ledger.step recover) next).updateChannelState recover state
      sig0 sig1 later = .error reason) ∧
    (calls.foldl (Ledger.step recover) next).step recover
        (.updateChannelState state sig0 sig1 later)
      = calls.foldl (Ledger.step recover) next ∧
    ((later = state.participant0 ∨ later = state.participant1) →
      (calls.foldl (Ledger.step recover) next).updateChannelState recover state sig0 sig1 later
        = .error .hashAlreadyCommitted) ∧
    ((later ≠ state.participant0 ∧ later ≠ state.participant1) →
      (calls.foldl (Ledger.step recover) next).updateChannelState recover state sig0 sig1 later
        = .error .senderDoesNotParticipate) ∧
    (calls.foldl (Ledger.step recover) next).updateChannelState recover state sig0 sig1 sender
      = .error .hashAlreadyCommitted ∧
    state.nonce ≤ ((calls.foldl (Ledger.step recover) next).channels
      (channelIdOf state.participant0 state.participant1)).nonce := by
  obtain ⟨h0, h1, hs, _, _, hchannels, hspent⟩ :=
    Ledger.updateChannelState_ok recover ledger next state sig0 sig1 sender events haccepted
  have hnext : next.committedHashes (hashState state) = true := by
    rw [hspent]; simp
  have hlater := Ledger.committedHashes_foldl recover calls (hashState state) next hnext
  obtain ⟨hrejected, hreason⟩ :=
    Ledger.updateChannelState_of_spent recover (calls.foldl (Ledger.step recover) next)
      state sig0 sig1 later hlater
  refine ⟨hrejected, ?_, fun hl => hreason h0 h1 hl, ?_, ?_, ?_⟩
  · obtain ⟨reason, hr⟩ := hrejected
    exact Ledger.step_of_error recover _ _ reason hr
  · intro hl
    unfold Ledger.updateChannelState
    simp only [h0, h1, ne_eq, not_true_eq_false, if_false, hl.1, hl.2, not_false_eq_true,
      and_self, if_true]
  · exact (Ledger.updateChannelState_of_spent recover _ state sig0 sig1 sender hlater).2
      h0 h1 hs
  · have hn : (next.channels (channelIdOf state.participant0 state.participant1)).nonce
        = state.nonce := by
      rw [hchannels]; simp
    have := Ledger.nonce_le_foldl recover calls
      (channelIdOf state.participant0 state.participant1) next
    omega

/-- Witness of the amended C11: the state `(alice, 1, bob, 30, 70)` is
accepted on `demoLedger`; bob then resets the channel and alice sends the
state again. -/
theorem updateChannelState_replay_rejected_witness :
    (∃ next events,
      demoLedger.updateChannelState demoRecover ⟨"alice", 1, "bob", 30, 70⟩ "alice:1" "bob:1"
        "alice" = .ok (next, events)) ∧
    (demoFunded.step demoRecover (.resetChannelState "alice" "bob" "bob")).updateChannelState
        demoRecover ⟨"alice", 1, "bob", 30, 70⟩ "alice:1" "bob:1" "alice"
      = .error .hashAlreadyCommitted :=
  ⟨⟨_, _, rfl⟩,
    (updateChannelState_replay_rejected demoRecover demoLedger _
      ⟨"alice", 1, "bob", 30, 70⟩ "alice:1" "bob:1" "alice" _ rfl
      [.resetChannelState "alice" "bob" "bob"] "alice").2.2.2.2.1⟩

/-- C12 (counterexample): on the ledger that has accepted the state
`(alice, 1, bob, 30, 70)`, the same state is correctly signed by both, its
nonce 1 is not above the nonce 1 of the record, and alice's call is rejected
with `hash was already committed`, not with `nonce must increment` (the
scenario of test lines 89-120). -/
theorem updateChannelState_replay_not_nonce_reason :
    demoRecover (hashState ⟨"alice", 1, "bob", 30, 70⟩) "alice:1" = "alice" ∧
    demoRecover (hashState ⟨"alice", 1, "bob", 30, 70⟩) "bob:1" = "bob" ∧
    (1 : Nat) ≤ (demoFunded.channels (channelIdOf "alice" "bob")).nonce ∧
    demoFunded.updateChannelState demoRecover ⟨"alice", 1, "bob", 30, 70⟩ "alice:1" "bob:1"
      "alice" = .error .hashAlreadyCommitted ∧
    demoFunded.updateChannelState demoRecover ⟨"alice", 1, "bob", 30, 70⟩ "alice:1" "bob:1"
      "alice" ≠ .error .nonceMustIncrement := by
  refine ⟨by decide, by decide, by decide, rfl, ?_⟩
  have h : demoFunded.updateChannelState demoRecover ⟨"alice", 1, "bob", 30, 70⟩ "alice:1"
      "bob:1" "alice" = .error .hashAlreadyCommitted := rfl
  rw [h]
  intro hne
  cases hne

/-- C12 (amended): for every channel record and every state correctly signed
by both participants, sent by one of them and not accepted before, whose
nonce is at most the nonce of the record, `updateChannelState` is rejected
with `nonce must increment` and leaves the ledger as it is; and over any
sequence of transactions the nonce of a channel record never decreases. -/
theorem updateChannelState_nonce_must_increment (recover : Recover) (ledger : Ledger)
    (state : State) (sig0 sig1 : String) (sender : Address)
    (hsig0 : recover (hashState state) sig0 = state.participant0)
    (hsig1 : recover (hashState state) sig1 = state.participant1)
    (hsender : sender = state.participant0 ∨ sender = state.participant1)
    (hfresh : ledger.committedHashes (hashState state) = false)
    (hnonce : state.nonce
      ≤ (ledger.channels (channelIdOf state.participant0 state.participant1)).nonce) :
    ledger.updateChannelState recover state sig0 sig1 sender = .error .nonceMustIncrement ∧
    ledger.step recover (.updateChannelState state sig0 sig1 sender) = ledger ∧
    (∀ (calls : List Call) (channelId : Digest),
      (ledger.channels channelId).nonce
        ≤ ((calls.foldl (Ledger.step recover) ledger).channels channelId).nonce) := by
  have hs' : ¬ (sender ≠ state.participant0 ∧ sender ≠ state.participant1) := by
    rcases hsender with h | h <;> simp [h]
  have hrejected : ledger.updateChannelState recover state sig0 sig1 sender
      = .error .nonceMustIncrement := by
    unfold Ledger.updateChannelState
    simp only [hsig0, hsig1, ne_eq, not_true_eq_false, if_false, hs', hfresh,
      Bool.false_eq_true, hnonce, if_true]
  exact ⟨hrejected, Ledger.step_of_error recover ledger _ _ hrejected,
    fun calls channelId => Ledger.nonce_le_foldl recover calls channelId ledger⟩

/-- Witness of the amended C12: on the funded ledger (record nonce 1) alice
sends the fresh state `(alice, 1, bob, 0, 0)` signed by both (the scenario of
test lines 209-230). -/
theorem updateChannelState_nonce_must_increment_witness :
    demoFunded.committedHashes (hashState ⟨"alice", 1, "bob", 0, 0⟩) = false ∧
    (1 : Nat) ≤ (demoFunded.channels (channelIdOf "alice" "bob")).nonce ∧
    demoFunded.updateChannelState demoRecover ⟨"alice", 1, "bob", 0, 0⟩ "alice:1" "bob:1"
      "alice" = .error .nonceMustIncrement ∧
    demoFunded.step demoRecover
      (.updateChannelState ⟨"alice", 1, "bob", 0, 0⟩ "alice:1" "bob:1" "alice") = demoFunded ∧
    (∀ (calls : List Call) (channelId : Digest),
      (demoFunded.channels channelId).nonce
        ≤ ((calls.foldl (Ledger.step demoRecover) demoFunded).channels channelId).nonce) :=
  ⟨by decide, by decide,
    updateChannelState_nonce_must_increment demoRecover demoFunded ⟨"alice", 1, "bob", 0, 0⟩
      "alice:1" "bob:1" "alice" (by decide) (by decide) (by decide) (by decide) (by decide)⟩

/-- C13 (counterexample): on the funded ledger `demoFunded` (reached since
deployment, record 30/70 of nonce 1) the state `(alice, 2, bob, 30, 71)` is
correctly signed by alice and bob, has a nonce above the record's and a total
of 101 that differs from the 100 of the record; sent by mallory, who is not a
participant, it is rejected with
`sender does not participate in this channel`, not with `invalid balances`. -/
theorem updateChannelState_outsider_not_invalid_balances :
    demoFunded.Reachable demoRecover ∧
    demoFunded.channels (channelIdOf "alice" "bob") = ⟨30, 70, 1⟩ ∧
    demoRecover (hashState ⟨"alice", 2, "bob", 30, 71⟩) "alice:2" = "alice" ∧
    demoRecover (hashState ⟨"alice", 2, "bob", 30, 71⟩) "bob:2" = "bob" ∧
    demoFunded.updateChannelState demoRecover ⟨"alice", 2, "bob", 30, 71⟩ "alice:2" "bob:2"
      "mallory" = .error .senderDoesNotParticipate ∧
    demoFunded.updateChannelState demoRecover ⟨"alice", 2, "bob", 30, 71⟩ "alice:2" "bob:2"
      "mallory" ≠ .error .invalidBalances := by
  refine ⟨⟨_, rfl⟩, by decide, by decide, by decide, rfl, ?_⟩
  have h : demoFunded.updateChannelState demoRecover ⟨"alice", 2, "bob", 30, 71⟩ "alice:2"
      "bob:2" "mallory" = .error .senderDoesNotParticipate := rfl
  rw [h]
  intro hne
  cases hne

/-- C13 (amended): on a contract storage reached since deployment, for a
funded channel (`balance0 + balance1 > 0`) and a state correctly signed by
both participants, sent by one of them, with a nonce above the record's, whose
`balance0 + balance1` differs from the total of the record,
`updateChannelState` is rejected with `invalid balances` and leaves the ledger
as it is. -/
theorem updateChannelState_invalid_balances (recover : Recover) (ledger : Ledger)
    (state : State) (sig0 sig1 : String) (sender : Address)
    (hreach : ledger.Reachable recover)
    (hsig0 : recover (hashState state) sig0 = state.participant0)
    (hsig1 : recover (hashState state) sig1 = state.participant1)
    (hsender : sender = state.participant0 ∨ sender = state.participant1)
    (hfunded : 0 < (ledger.channels
        (channelIdOf state.participant0 state.participant1)).balance0
      + (ledger.channels (channelIdOf state.participant0 state.participant1)).balance1)
    (hnonce : (ledger.channels
      (channelIdOf state.participant0 state.participant1)).nonce < state.nonce)
    (htotal : state.balance0 + state.balance1
      ≠ (ledger.channels (channelIdOf state.participant0 state.participant1)).balance0
        + (ledger.channels (channelIdOf state.participant0 state.participant1)).balance1) :
    ledger.updateChannelState recover state sig0 sig1 sender = .error .invalidBalances ∧
    ledger.step recover (.updateChannelState state sig0 sig1 sender) = ledger := by
  have hinv := Ledger.spentBelowNonce_of_reachable recover ledger hreach
  have hfresh : ledger.committedHashes (hashState state) = false := by
    by_contra hspent
    have := hinv state (by simpa using hspent)
    omega
  have hs' : ¬ (sender ≠ state.participant0 ∧ sender ≠ state.participant1) := by
    rcases hsender with h | h <;> simp [h]
  have hnotempty : ¬ ((ledger.channels
      (channelIdOf state.participant0 state.participant1)).balance0 = 0 ∧
      (ledger.channels (channelIdOf state.participant0 state.participant1)).balance1 = 0) := by
    omega
  have hlock : lockFunds ledger.balances
      (ledger.channels (channelIdOf state.participant0 state.participant1)) state
      = .error .invalidBalances := by
    unfold lockFunds
    simp only [hnotempty, if_false, ne_eq, htotal.symm, not_false_eq_true, if_true]
  have hrejected : ledger.updateChannelState recover state sig0 sig1 sender
      = .error .invalidBalances := by
    unfold Ledger.updateChannelState
    simp only [hsig0, hsig1, ne_eq, not_true_eq_false, if_false, hs', hfresh,
      Bool.false_eq_true, Nat.not_le.2 hnonce, hlock]
  exact ⟨hrejected, Ledger.step_of_error recover ledger _ _ hrejected⟩

/-- Witness of the amended C13: on the funded ledger (record 30/70, nonce 1)
alice sends the state `(alice, 2, bob, 30, 71)` signed by both. -/
theorem updateChannelState_invalid_balances_witness :
    demoFunded.Reachable demoRecover ∧
    demoFunded.channels (channelIdOf "alice" "bob") = ⟨30, 70, 1⟩ ∧
    demoFunded.updateChannelState demoRecover ⟨"alice", 2, "bob", 30, 71⟩ "alice:2" "bob:2"
      "alice" = .error .invalidBalances ∧
    demoFunded.step demoRecover
      (.updateChannelState ⟨"alice", 2, "bob", 30, 71⟩ "alice:2" "bob:2" "alice")
      = demoFunded :=
  ⟨⟨_, rfl⟩, by decide,
    updateChannelState_invalid_balances demoRecover demoFunded ⟨"alice", 2, "bob", 30, 71⟩
      "alice:2" "bob:2" "alice" ⟨_, rfl⟩ (by decide) (by decide) (by decide) (by decide)
      (by decide) (by decide)⟩

/-- C14: for every state whose `sig0` does not recover to `participant0`,
`updateChannelState` is rejected with `invalid sig0` and leaves the ledger as
it is, whoever the sender is, a sender who is not a declared participant
included. -/
theorem updateChannelState_invalid_sig0 (recover : Recover) (ledger : Ledger)
    (state : State) (sig0 sig1 : String) (sender : Address)
    (hsig0 : recover (hashState state) sig0 ≠ state.participant0) :
    ledger.updateChannelState recover state sig0 sig1 sender = .error .invalidSig0 ∧
    ledger.step recover (.updateChannelState state sig0 sig1 sender) = ledger := by
  have hrejected : ledger.updateChannelState recover state sig0 sig1 sender
      = .error .invalidSig0 := by
    unfold Ledger.updateChannelState
    simp only [ne_eq, hsig0, not_false_eq_true, if_true]
  exact ⟨hrejected, Ledger.step_of_error recover ledger _ _ hrejected⟩

/-- Witness of C14: a state of (carol, dave) signed by alice and bob and sent
by alice (the scenario of test lines 122-149). -/
theorem updateChannelState_invalid_sig0_witness :
    demoRecover (hashState ⟨"carol", 1, "dave", 30, 70⟩) "alice:1" ≠ "carol" ∧
    ("alice" ≠ "carol" ∧ "alice" ≠ "dave") ∧
    demoLedger.updateChannelState demoRecover ⟨"carol", 1, "dave", 30, 70⟩ "alice:1" "bob:1"
      "alice" = .error .invalidSig0 ∧
    demoLedger.step demoRecover
      (.updateChannelState ⟨"carol", 1, "dave", 30, 70⟩ "alice:1" "bob:1" "alice")
      = demoLedger :=
  ⟨by decide, by decide,
    updateChannelState_invalid_sig0 demoRecover demoLedger ⟨"carol", 1, "dave", 30, 70⟩
      "alice:1" "bob:1" "alice" (by decide)⟩

/-- C15 (counterexample): alice is neither carol nor dave, and her call of
`updateChannelState` with a state of (carol, dave) signed by alice and bob is
rejected with `invalid sig0`, not with `sender does not participate in this
channel` (the scenario of test lines 122-149). -/
theorem updateChannelState_outsider_invalid_sig0 :
    ("alice" ≠ "carol" ∧ "alice" ≠ "dave") ∧
    demoLedger.updateChannelState demoRecover ⟨"carol", 1, "dave", 30, 70⟩ "alice:1" "bob:1"
      "alice" = .error .invalidSig0 ∧
    demoLedger.updateChannelState demoRecover ⟨"carol", 1, "dave", 30, 70⟩ "alice:1" "bob:1"
      "alice" ≠ .error .senderDoesNotParticipate := by
  refine ⟨by decide, rfl, ?_⟩
  have h : demoLedger.updateChannelState demoRecover ⟨"carol", 1, "dave", 30, 70⟩ "alice:1"
      "bob:1" "alice" = .error .invalidSig0 := rfl
  rw [h]
  intro hne
  cases hne

/-- C15 (amended): for every channel and every sender that is neither
participant0 nor participant1, `updateChannelState` with a state of the
channel correctly signed by both participants, and `resetChannelState` of the
channel, are rejected with `sender does not participate in this channel` and
leave the ledger as it is, every free balance and every channel record
included. -/
theorem outsider_rejected (recover : Recover) (ledger : Ledger)
    (participant0 participant1 sender : Address)
    (h0 : sender ≠ participant0) (h1 : sender ≠ participant1) :
    (∀ (nonce balance0 balance1 : Nat) (sig0 sig1 : String),
      recover (hashState ⟨participant0, nonce, participant1, balance0, balance1⟩) sig0
        = participant0 →
      recover (hashState ⟨participant0, nonce, participant1, balance0, balance1⟩) sig1
        = participant1 →
      ledger.updateChannelState recover
          ⟨participant0, nonce, participant1, balance0, balance1⟩ sig0 sig1 sender
        = .error .senderDoesNotParticipate ∧
      ledger.step recover (.updateChannelState
          ⟨participant0, nonce, participant1, balance0, balance1⟩ sig0 sig1 sender)
        = ledger) ∧
    ledger.resetChannelState participant0 participant1 sender
      = .error .senderDoesNotParticipate ∧
    ledger.step recover (.resetChannelState participant0 participant1 sender) = ledger ∧
    (∀ account, (ledger.step recover
      (.resetChannelState participant0 participant1 sender)).balances account
        = ledger.balances account) ∧
    (∀ channelId, (ledger.step recover
      (.resetChannelState participant0 participant1 sender)).channels channelId
        = ledger.channels channelId) := by
  have hreset : ledger.resetChannelState participant0 participant1 sender
      = .error .senderDoesNotParticipate := by
    unfold Ledger.resetChannelState
    simp only [ne_eq, h0, h1, not_false_eq_true, and_self, if_true]
  have hstep : ledger.step recover (.resetChannelState participant0 participant1 sender)
      = ledger := Ledger.step_of_error recover ledger _ _ hreset
  refine ⟨?_, hreset, hstep, fun account => by rw [hstep], fun channelId => by rw [hstep]⟩
  intro nonce balance0 balance1 sig0 sig1 hsig0 hsig1
  have hrejected : ledger.updateChannelState recover
      ⟨participant0, nonce, participant1, balance0, balance1⟩ sig0 sig1 sender
      = .error .senderDoesNotParticipate := by
    unfold Ledger.updateChannelState
    simp only [hsig0, hsig1, ne_eq, not_true_eq_false, if_false, h0, h1, not_false_eq_true,
      and_self, if_true]
  exact ⟨hrejected, Ledger.step_of_error recover ledger _ _ hrejected⟩

/-- Witness of the amended C15: mallory sends a state of (alice, bob) signed
by both, then asks for a reset of their funded channel (the scenarios of test
lines 151-178 and 395-400). -/
theorem outsider_rejected_witness :
    ("mallory" ≠ "alice" ∧ "mallory" ≠ "bob") ∧
    demoFunded.updateChannelState demoRecover ⟨"alice", 2, "bob", 29, 71⟩ "alice:2" "bob:2"
      "mallory" = .error .senderDoesNotParticipate ∧
    demoFunded.resetChannelState "alice" "bob" "mallory" = .error .senderDoesNotParticipate :=
  ⟨by decide,
    ((outsider_rejected demoRecover demoFunded "alice" "bob" "mallory" (by decide)
      (by decide)).1 2 29 71 "alice:2" "bob:2" (by decide) (by decide)).1,
    (outsider_rejected demoRecover demoFunded "alice" "bob" "mallory" (by decide)
      (by decide)).2.1⟩

/-- C16: for a funded channel of two distinct participants and a sender that
is one of them, `resetChannelState` succeeds; afterwards the free balance of
participant0 has increased by exactly the `balance0` the record held and that
of participant1 by exactly its `balance1`, the balances of the record are
both 0, its nonce is unchanged, and one event `ChannelUpdated` with zero
balances is emitted; a second reset of the now-empty channel is rejected,
with `lock some funds into the channel first` when it comes from a
participant. -/
theorem resetChannelState_returns_funds (recover : Recover) (ledger : Ledger)
    (participant0 participant1 sender : Address)
    (hdistinct : participant0 ≠ participant1)
    (hsender : sender = participant0 ∨ sender = participant1)
    (hfunded : 0 < (ledger.channels (channelIdOf participant0 participant1)).balance0
      + (ledger.channels (channelIdOf participant0 participant1)).balance1) :
    ∃ next : Ledger,
      ledger.resetChannelState participant0 participant1 sender
        = .ok (next, [⟨channelIdOf participant0 participant1, participant0, participant1,
            0, 0, (ledger.channels (channelIdOf participant0 participant1)).nonce⟩]) ∧
      ledger.step recover (.resetChannelState participant0 participant1 sender) = next ∧
      next.balances participant0 = ledger.balances participant0
        + (ledger.channels (channelIdOf participant0 participant1)).balance0 ∧
      next.balances participant1 = ledger.balances participant1
        + (ledger.channels (channelIdOf participant0 participant1)).balance1 ∧
      next.channels (channelIdOf participant0 participant1)
        = ⟨0, 0, (ledger.channels (channelIdOf participant0 participant1)).nonce⟩ ∧
      (∀ again, ∃ reason,
        next.resetChannelState participant0 participant1 again = .error reason) ∧
      (∀ again, again = participant0 ∨ again = participant1 →
        next.resetChannelState participant0 participant1 again
          = .error .lockSomeFundsFirst) := by
  have hs' : ¬ (sender ≠ participant0 ∧ sender ≠ participant1) := by
    rcases hsender with h | h <;> simp [h]
  have hnotempty : ¬ ((ledger.channels (channelIdOf participant0 participant1)).balance0 = 0 ∧
      (ledger.channels (channelIdOf participant0 participant1)).balance1 = 0) := by
    omega
  have hreset : ledger.resetChannelState participant0 participant1 sender
      = .ok (⟨Function.update
          (Function.update ledger.balances participant0
            (ledger.balances participant0
              + (ledger.channels (channelIdOf participant0 participant1)).balance0))
          participant1
          (Function.update ledger.balances participant0
            (ledger.balances participant0
              + (ledger.channels (channelIdOf participant0 participant1)).balance0)
            participant1
            + (ledger.channels (channelIdOf participant0 participant1)).balance1),
        Function.update ledger.channels (channelIdOf participant0 participant1)
          ⟨0, 0, (ledger.channels (channelIdOf participant0 participant1)).nonce⟩,
        ledger.committedHashes⟩,
        [⟨channelIdOf participant0 participant1, participant0, participant1,
            0, 0, (ledger.channels (channelIdOf participant0 participant1)).nonce⟩]) := by
    unfold Ledger.resetChannelState
    simp only [hs', if_false, hnotempty]
  refine ⟨_, hreset, ?_, ?_, ?_, ?_, ?_, ?_⟩
  · unfold Ledger.step
    simp only [Ledger.call, hreset]
  · simp only [Function.update_noteq hdistinct, Function.update_same]
  · have hne : participant1 ≠ participant0 := fun h => hdistinct h.symm
    simp only [Function.update_same, Function.update_noteq hne]
  · simp only [Function.update_same]
  · intro again
    unfold Ledger.resetChannelState
    simp only [Function.update_same, and_self, if_true]
    split
    · exact ⟨_, rfl⟩
    · exact ⟨_, rfl⟩
  · intro again hagain
    have ha' : ¬ (again ≠ participant0 ∧ again ≠ participant1) := by
      rcases hagain with h | h <;> simp [h]
    unfold Ledger.resetChannelState
    simp only [ha', if_false, Function.update_same, and_self, if_true]

/-- Witness of C16: bob resets the funded channel of (alice, bob), whose record
is 30/70 with nonce 1; alice gets 30 back and bob 70. -/
theorem resetChannelState_returns_funds_witness :
    demoFunded.channels (channelIdOf "alice" "bob") = ⟨30, 70, 1⟩ ∧
    demoFunded.balances "alice" = 70 ∧ demoFunded.balances "bob" = 30 ∧
    ∃ next : Ledger,
      demoFunded.resetChannelState "alice" "bob" "bob"
        = .ok (next, [⟨channelIdOf "alice" "bob", "alice", "bob", 0, 0,
            (demoFunded.channels (channelIdOf "alice" "bob")).nonce⟩]) ∧
      demoFunded.step demoRecover (.resetChannelState "alice" "bob" "bob") = next ∧
      next.balances "alice" = demoFunded.balances "alice"
        + (demoFunded.channels (channelIdOf "alice" "bob")).balance0 ∧
      next.balances "bob" = demoFunded.balances "bob"
        + (demoFunded.channels (channelIdOf "alice" "bob")).balance1 ∧
      next.channels (channelIdOf "alice" "bob")
        = ⟨0, 0, (demoFunded.channels (channelIdOf "alice" "bob")).nonce⟩ ∧
      (∀ again, ∃ reason, next.resetChannelState "alice" "bob" again = .error reason) ∧
      (∀ again, again = "alice" ∨ again = "bob" →
        next.resetChannelState "alice" "bob" again = .error .lockSomeFundsFirst) :=
  ⟨by decide, by decide, by decide,
    resetChannelState_returns_funds demoRecover demoFunded "alice" "bob" "bob" (by decide)
      (by decide) (by decide)⟩

/-- C17 (evaluation at the failing input): the selected receipt has nonce 1
and the ledger's record has nonce 1.  The stale-nonce branch logs nothing and
the run ends with the `ReferenceError` raised by the undeclared name `nonce`
in the message of line 112. -/
theorem updateChannel_stale_branch_throws :
    selectedReceipt (demoEnv "1" demoConfirmed) [demoReceipt "alice" "bob" "1" false]
      = some { demoReceipt "alice" "bob" "1" false with index := some 0 } ∧
    ((demoEnv "1" demoConfirmed).parseInt "1").ge ((demoEnv "1" demoConfirmed).parseInt "1")
      = true ∧
    updateChannel (demoEnv "1" demoConfirmed) [demoReceipt "alice" "bob" "1" false]
      = { console := [], ledger := [.channels (keccak256 (encodePacked "alice" "bob"))],
          written := none, completion := .threw (.referenceError "nonce") } := by
  decide

end StateChannel
